import Mathlib

/-!
Shallow embedding of the blueleafbooks backend core (pricing engine,
coupon validation, order creation, file access control, and the
platform-fee billing routes), with theorems checking the specified
properties against the embedded code.

Conventions:
- JS numbers carrying money are modelled as rationals.
- JS Date values are modelled as integer timestamps (milliseconds).
- Mongo documents are Lean structures; collections are lists; queries are
  list filters / finds mirroring the query conditions.
- `parseFloat(x.toFixed(2))` is modelled by `round2` (round half up at two
  decimals, which is what toFixed does for the nonnegative amounts here).
-/

namespace BlueLeaf

abbrev Time := Int

/-- Round a rational to two decimal places, half away from zero for
nonnegative inputs, mirroring JS `parseFloat(x.toFixed(2))`. -/
def round2 (q : ℚ) : ℚ := ((round (q * 100) : ℤ) : ℚ) / 100

/-! Data model, from the mongoose schemas (Book, Coupon, Order,
PlatformFeeStatus, User). Only the fields the verified routes read are
kept. Identifiers are natural numbers standing for ObjectIds. -/

structure Book where
  id : Nat
  author : Nat
  price : ℚ
  isDeleted : Bool
  salesCount : Nat
  pdfFile : String
deriving Repr, DecidableEq

inductive CouponScope
  | all
  | author
deriving Repr, DecidableEq

structure Coupon where
  code : String
  discountPercentage : ℚ
  scope : CouponScope
  author : Option Nat
  isActive : Bool
  validFrom : Option Time
  validTo : Option Time
deriving Repr, DecidableEq

structure DiscountedItem where
  bookId : Nat
  originalPrice : ℚ
  discountedPrice : ℚ
  discountAmount : ℚ
  isDiscounted : Bool
deriving Repr, DecidableEq

structure PricingResult where
  books : List Book
  originalTotal : ℚ
  discountAmount : ℚ
  total : ℚ
  discountCode : Option String
  discountPercentage : Option ℚ
  discountedItems : List DiscountedItem
deriving Repr, DecidableEq

inductive PricingError
  | invalidCode
  | notActive
  | notYetValid
  | expired
  | scopeMismatch (author : Option Nat)
deriving Repr, DecidableEq

/-- The `Book.find({ _id: { $in: bookIds }, isDeleted: false })` query:
each catalog document whose id is in the requested list and that is not
soft-deleted (each document occurs once, as with a Mongo `$in` query). -/
def fetchBooks (catalog : List Book) (bookIds : List Nat) : List Book :=
  catalog.filter (fun b => bookIds.contains b.id && !b.isDeleted)

def bookSum (books : List Book) : ℚ := (books.map (fun b => b.price)).sum

/-- The result returned for an empty `bookIds` array. -/
def emptyPricing : PricingResult :=
  { books := [], originalTotal := 0, discountAmount := 0, total := 0,
    discountCode := none, discountPercentage := none, discountedItems := [] }

/-- `String(couponCode).toUpperCase().trim()`: uppercase every character
and strip surrounding whitespace (computed over the character list). -/
def normalizeCode (s : String) : String :=
  String.mk
    ((((s.data.map Char.toUpper).dropWhile Char.isWhitespace).reverse.dropWhile
        Char.isWhitespace).reverse)

/-- Coupon `validFrom && now < coupon.validFrom`. -/
def beforeWindow (c : Coupon) (now : Time) : Bool :=
  match c.validFrom with
  | some t => decide (now < t)
  | none => false

/-- Coupon `validTo && now > coupon.validTo`. -/
def afterWindow (c : Coupon) (now : Time) : Bool :=
  match c.validTo with
  | some t => decide (t < now)
  | none => false

/-- Per-item eligibility:
`scope === 'all' || (scope === 'author' && coupon.author && book.author == coupon.author)`. -/
def couponEligible (c : Coupon) (b : Book) : Bool :=
  c.scope == CouponScope.all ||
    (c.scope == CouponScope.author && c.author == some b.author)

/-- One entry of the `discountedItems` array built in `calculateCartPricing`. -/
def discountedItemFor (c : Coupon) (b : Book) : DiscountedItem :=
  let originalPrice := b.price
  let isEligible := couponEligible c b
  let bookDiscountAmount := if isEligible then originalPrice * (c.discountPercentage / 100) else 0
  let discountedPrice := max 0 (originalPrice - bookDiscountAmount)
  { bookId := b.id, originalPrice := round2 originalPrice,
    discountedPrice := round2 discountedPrice,
    discountAmount := round2 bookDiscountAmount,
    isDiscounted := isEligible }

/-- utils/pricing.js `calculateCartPricing`: the single source of truth for
coupon validation, author-scope eligibility and per-item discounted
prices. Thrown errors are modelled by the `Except` error branch. -/
def calculateCartPricing (catalog : List Book) (coupons : List Coupon)
    (bookIds : List Nat) (couponCode : Option String) (now : Time) :
    Except PricingError PricingResult :=
  if bookIds.isEmpty then .ok emptyPricing else
  let books := fetchBooks catalog bookIds
  let originalTotal := bookSum books
  match couponCode with
  | none =>
      .ok { books := books, originalTotal := round2 originalTotal, discountAmount := 0,
            total := round2 originalTotal, discountCode := none, discountPercentage := none,
            discountedItems := books.map (fun b =>
              { bookId := b.id, originalPrice := round2 b.price,
                discountedPrice := round2 b.price, discountAmount := 0,
                isDiscounted := false }) }
  | some rawCode =>
      let code := normalizeCode rawCode
      match coupons.find? (fun c => c.code == code) with
      | none => .error .invalidCode
      | some coupon =>
          if !coupon.isActive then .error .notActive
          else if beforeWindow coupon now then .error .notYetValid
          else if afterWindow coupon now then .error .expired
          else if coupon.scope == CouponScope.author &&
              !(books.any (fun b => coupon.author == some b.author)) then
            .error (.scopeMismatch coupon.author)
          else
            let items := books.map (discountedItemFor coupon)
            let newTotal := (items.map (fun i => i.discountedPrice)).sum
            let discountAmount := max 0 (originalTotal - newTotal)
            .ok { books := books, originalTotal := round2 originalTotal,
                  discountAmount := round2 discountAmount, total := round2 newTotal,
                  discountCode := some coupon.code,
                  discountPercentage := some coupon.discountPercentage,
                  discountedItems := items }

/-! Orders and users (models/Order.js, models/User.js). -/

structure BreakdownEntry where
  author : Nat
  amount : ℚ
  paidOut : Bool
deriving Repr, DecidableEq

structure OrderItem where
  book : Nat
  price : ℚ
deriving Repr, DecidableEq

inductive PaymentStatus
  | pending
  | completed
  | failed
deriving Repr, DecidableEq

structure Order where
  customer : Nat
  items : List OrderItem
  totalAmount : ℚ
  platformEarnings : ℚ
  authorEarnings : ℚ
  authorEarningsBreakdown : List BreakdownEntry
  paymentId : String
  paymentStatus : PaymentStatus
  discountCode : Option String
  discountPercentage : Option ℚ
  discountAmount : Option ℚ
  createdAt : Time
deriving Repr, DecidableEq

structure UserRec where
  id : Nat
  role : String
  createdAt : Time
  isBlocked : Bool
  blockedReason : Option String
  blockedAt : Option Time
deriving Repr, DecidableEq

structure FeeStatusRec where
  author : Nat
  period : String
  isPaid : Bool
  paidAt : Option Time
  note : String
  updatedAt : Time
deriving Repr, DecidableEq

/-- The persistent state the verified routes touch. -/
structure Store where
  catalog : List Book
  coupons : List Coupon
  orders : List Order
  users : List UserRec
  feeStatuses : List FeeStatusRec
deriving Repr, DecidableEq

/-! Order creation. Both POST / handlers (routes/orders.js, and the
PayPal-verifying variant) compute an author-earnings map keyed by author
id: `if (!map[a]) map[a] = 0; map[a] += earning`, preserving first
insertion order. -/

def addEarning : List (Nat × ℚ) → Nat → ℚ → List (Nat × ℚ)
  | [], a, amt => [(a, amt)]
  | (b, v) :: rest, a, amt =>
      if b = a then (b, v + amt) :: rest else (b, v) :: addEarning rest a amt

/-- Earnings map of the PayPal-verifying route: shares are proportional to
each book price over `pricing.originalTotal`, guarded against a zero
denominator (`originalTotal > 0 ? book.price / originalTotal : 0`). -/
def buildEarningsMap (books : List Book) (originalTotal totalAmount feePct : ℚ) :
    List (Nat × ℚ) :=
  books.foldl (fun m b =>
    let bookShare := if 0 < originalTotal then b.price / originalTotal else 0
    let bookFinalPrice := totalAmount * bookShare
    let authorEarning := bookFinalPrice * (1 - feePct / 100)
    addEarning m b.author authorEarning) []

/-! routes/orders.js computes each book's share with an UNGUARDED JS
division `book.price / originalTotal`. When the original total is zero
that division is IEEE 0/0 = NaN (or ±Infinity for a nonzero numerator),
not a rational number, so the plain route's earnings loop is modelled in
a small JS-number domain that tracks non-finite values exactly through
the operations the route performs. -/

inductive JsNum where
  | num (q : ℚ)
  | nan
  | posInf
  | negInf
deriving Repr, DecidableEq

def JsNum.isNan : JsNum → Bool
  | .nan => true
  | _ => false

/-- JS division of two finite numbers. The route divides the stored price
by `originalTotal`, a JS sum starting at +0, so a zero denominator is +0:
`0/0 = NaN` and `x/0 = ±Infinity` by the sign of `x`. -/
def jsDiv (a b : ℚ) : JsNum :=
  if b = 0 then
    if a = 0 then .nan else if 0 < a then .posInf else .negInf
  else .num (a / b)

/-- JS multiplication of a finite number `c` by a possibly non-finite one
(`totalAmount * bookShare`): `c * NaN = NaN`, `0 * ±Infinity = NaN`,
otherwise an infinity keeps or flips its sign with the sign of `c`. -/
def jsCMul (c : ℚ) : JsNum → JsNum
  | .num q => .num (c * q)
  | .nan => .nan
  | .posInf => if c = 0 then .nan else if 0 < c then .posInf else .negInf
  | .negInf => if c = 0 then .nan else if 0 < c then .negInf else .posInf

/-- JS multiplication with the finite factor on the right
(`bookFinalPrice * (1 - PLATFORM_FEE_PERCENTAGE / 100)`). -/
def jsMulC (x : JsNum) (c : ℚ) : JsNum :=
  match x with
  | .num q => .num (q * c)
  | .nan => .nan
  | .posInf => if c = 0 then .nan else if 0 < c then .posInf else .negInf
  | .negInf => if c = 0 then .nan else if 0 < c then .negInf else .posInf

/-- JS addition, for the `+=` accumulation: NaN absorbs, opposite
infinities give NaN, an infinity absorbs finite summands. -/
def jsAdd : JsNum → JsNum → JsNum
  | .nan, _ => .nan
  | _, .nan => .nan
  | .posInf, .negInf => .nan
  | .negInf, .posInf => .nan
  | .posInf, _ => .posInf
  | .negInf, _ => .negInf
  | .num _, .posInf => .posInf
  | .num _, .negInf => .negInf
  | .num a, .num b => .num (a + b)

/-- `authorEarningsMap[author] += authorEarning` in JS-number semantics
(the initializing `0 +` of a fresh key is the identity on every JS
number and is elided). -/
def addEarningJs : List (Nat × JsNum) → Nat → JsNum → List (Nat × JsNum)
  | [], a, amt => [(a, amt)]
  | (b, v) :: rest, a, amt =>
      if b = a then (b, jsAdd v amt) :: rest else (b, v) :: addEarningJs rest a amt

/-- The authorEarningsMap loop of routes/orders.js, in JS-number
semantics: the unguarded share `book.price / originalTotal`, the two
multiplications, and the `+=` accumulation. -/
def buildEarningsMapPlainJs (books : List Book) (originalTotal totalAmount feePct : ℚ) :
    List (Nat × JsNum) :=
  books.foldl (fun m b =>
    let bookShare := jsDiv b.price originalTotal
    let bookFinalPrice := jsCMul totalAmount bookShare
    let authorEarning := jsMulC bookFinalPrice (1 - feePct / 100)
    addEarningJs m b.author authorEarning) []

/-- A JS number read back as a rational. Applied below only to entries of
a breakdown that passed the save-time NaN check; a ±Infinity entry would
require a negative stored price (the Book schema declares `min: 0`) and
is mapped to 0 as an out-of-model placeholder. -/
def JsNum.toRat : JsNum → ℚ
  | .num q => q
  | _ => 0

/-- Earnings map of routes/orders.js as stored in the Order document: the
JS-number computation read back as rationals. -/
def buildEarningsMapPlain (books : List Book) (originalTotal totalAmount feePct : ℚ) :
    List (Nat × ℚ) :=
  (buildEarningsMapPlainJs books originalTotal totalAmount feePct).map
    (fun p => (p.1, p.2.toRat))

/-- The routes/orders.js earnings fold restricted to a nonzero original
total, where every intermediate JS value is finite: the plain rational
computation. `buildEarningsMapPlain` agrees with it whenever
`originalTotal ≠ 0` (proved below). -/
def buildEarningsMapPlainFin (books : List Book) (originalTotal totalAmount feePct : ℚ) :
    List (Nat × ℚ) :=
  books.foldl (fun m b =>
    let bookShare := b.price / originalTotal
    let bookFinalPrice := totalAmount * bookShare
    let authorEarning := bookFinalPrice * (1 - feePct / 100)
    addEarning m b.author authorEarning) []

inductive OrderError
  | emptyCart
  | missingPaymentId
  | booksUnavailable
  | invalidAmount
  | paypalError
  | paymentNotCompleted (status : String)
  | currencyMismatch
  | amountMismatch (expected paid : Option ℚ)
  | pricingFailed (e : PricingError)
  | castError
deriving Repr, DecidableEq

/-- Increment `salesCount` on each purchased (fetched) book, as the
`for (const book of books) { book.salesCount += 1; await book.save(); }`
loop does on the documents returned by the non-deleted `$in` query. -/
def bumpSales (catalog : List Book) (bookIds : List Nat) : List Book :=
  catalog.map (fun b =>
    if bookIds.contains b.id && !b.isDeleted then
      { b with salesCount := b.salesCount + 1 }
    else b)

/-- The books iterated by the routes/orders.js item loop: for each
requested id, the fetched document with that id
(`books.find(b => b._id.toString() === item.bookId)`). -/
def plainChosen (catalog : List Book) (bookIds : List Nat) : List Book :=
  bookIds.filterMap (fun i => (fetchBooks catalog bookIds).find? (fun b => b.id == i))

/-- The Order document routes/orders.js builds and saves. -/
def mkPlainOrder (chosen : List Book) (userId : Nat) (paymentId : String)
    (discountCode : Option String) (discountPercentage : Option ℚ)
    (clientDiscountAmount : Option ℚ) (feePct : ℚ) (now : Time) : Order :=
  let originalTotal := bookSum chosen
  let appliedDiscountAmount := clientDiscountAmount.getD 0
  let totalAmount := originalTotal - appliedDiscountAmount
  let platformEarnings := totalAmount * (feePct / 100)
  let totalAuthorEarnings := totalAmount - platformEarnings
  let em := buildEarningsMapPlain chosen originalTotal totalAmount feePct
  { customer := userId,
    items := chosen.map (fun b => { book := b.id, price := b.price }),
    totalAmount := totalAmount,
    platformEarnings := platformEarnings,
    authorEarnings := totalAuthorEarnings,
    authorEarningsBreakdown := em.map (fun p => { author := p.1, amount := p.2, paidOut := false }),
    paymentId := paymentId,
    paymentStatus := .completed,
    discountCode := discountCode,
    discountPercentage := discountPercentage,
    discountAmount := if 0 < appliedDiscountAmount then some appliedDiscountAmount else none,
    createdAt := now }

/-- routes/orders.js POST / up to (and including) the save attempt:
validation and the Order document to persist. Errors return before any
write: `order.save()` raises a Mongoose CastError when any breakdown
amount is NaN (the Order schema declares `amount: { type: Number,
required: true }` and Mongoose rejects NaN for Number paths), and the
route's catch answers 500 before the salesCount loop runs. -/
def createOrderPlainResult (store : Store) (userId : Nat) (bookIds : List Nat)
    (paymentId : String) (discountCode : Option String) (discountPercentage : Option ℚ)
    (clientDiscountAmount : Option ℚ) (feePct : ℚ) (now : Time) :
    Except OrderError Order :=
  if bookIds.isEmpty then .error .emptyCart else
  let books := fetchBooks store.catalog bookIds
  if books.length ≠ bookIds.length then .error .booksUnavailable else
  let chosen := plainChosen store.catalog bookIds
  if (buildEarningsMapPlainJs chosen (bookSum chosen)
      (bookSum chosen - clientDiscountAmount.getD 0) feePct).any
      (fun p => p.2.isNan) then .error .castError else
  .ok (mkPlainOrder chosen userId paymentId
    discountCode discountPercentage clientDiscountAmount feePct now)

/-- routes/orders.js POST /: persists the order trusting the
client-supplied discount fields, with no external payment verification.
On success it saves the order and bumps the purchased books' sales
counters; errors return with the store untouched. -/
def createOrderPlain (store : Store) (userId : Nat) (bookIds : List Nat)
    (paymentId : String) (discountCode : Option String) (discountPercentage : Option ℚ)
    (clientDiscountAmount : Option ℚ) (feePct : ℚ) (now : Time) :
    Except OrderError Order × Store :=
  match createOrderPlainResult store userId bookIds paymentId discountCode
      discountPercentage clientDiscountAmount feePct now with
  | .error e => (.error e, store)
  | .ok order =>
      (.ok order,
       { store with orders := store.orders ++ [order],
                    catalog := bumpSales store.catalog bookIds })

/-! PayPal verification data for the verifying POST / route. A `none`
fetch result models the OrdersGetRequest call failing (network error or a
missing result body). -/

structure PayPalAmount where
  value : Option ℚ
  currency : Option String
deriving Repr, DecidableEq

structure PayPalOrderInfo where
  status : String
  amount : Option PayPalAmount
deriving Repr, DecidableEq

/-- The Order document the verifying route builds after all checks pass. -/
def mkSecureOrder (books : List Book) (pricing : PricingResult) (userId : Nat)
    (paymentId : String) (feePct : ℚ) (authorsReceiveDirectly : Bool) (now : Time) : Order :=
  let originalTotal := pricing.originalTotal
  let totalAmount := pricing.total
  let appliedDiscountAmount := pricing.discountAmount
  let platformEarnings := totalAmount * (feePct / 100)
  let totalAuthorEarnings := totalAmount - platformEarnings
  let em := buildEarningsMap books originalTotal totalAmount feePct
  { customer := userId,
    items := books.map (fun b => { book := b.id, price := b.price }),
    totalAmount := totalAmount,
    platformEarnings := platformEarnings,
    authorEarnings := totalAuthorEarnings,
    authorEarningsBreakdown := em.map (fun p =>
      { author := p.1, amount := p.2, paidOut := authorsReceiveDirectly }),
    paymentId := paymentId,
    paymentStatus := .completed,
    discountCode := pricing.discountCode,
    discountPercentage := pricing.discountPercentage,
    discountAmount := if 0 < appliedDiscountAmount then some appliedDiscountAmount else none,
    createdAt := now }

/-- The PayPal-verifying POST / route up to (and excluding) the save:
server-side pricing, the PayPal refetch, and the status / currency /
amount verification. Every error returns before any write.
`rawItems.filter (· ≠ 0)` mirrors
`items.map(i => i.bookId).filter(Boolean)` with 0 as the falsy id. -/
def createOrderSecureResult (store : Store) (userId : Nat) (rawItems : List Nat)
    (paymentId : Option String) (discountCode : Option String)
    (paypalFetch : Option PayPalOrderInfo) (feePct : ℚ)
    (authorsReceiveDirectly : Bool) (now : Time) :
    Except OrderError Order :=
  if rawItems.isEmpty then .error .emptyCart else
  match paymentId with
  | none => .error .missingPaymentId
  | some pid =>
    let bookIds := rawItems.filter (fun i => i ≠ 0)
    match calculateCartPricing store.catalog store.coupons bookIds discountCode now with
    | .error e => .error (.pricingFailed e)
    | .ok pricing =>
      if pricing.books.length ≠ bookIds.length then .error .booksUnavailable else
      let books := fetchBooks store.catalog bookIds
      if books.length ≠ bookIds.length then .error .booksUnavailable else
      let totalAmount := pricing.total
      if totalAmount ≤ 0 then .error .invalidAmount else
      match paypalFetch with
      | none => .error .paypalError
      | some pp =>
        if pp.status ≠ "COMPLETED" then .error (.paymentNotCompleted pp.status) else
        let paidCurrency := pp.amount.bind (fun a => a.currency)
        let paidAmount := pp.amount.bind (fun a => a.value)
        let expectedAmount := round2 totalAmount
        if (match paidCurrency with
            | some c => c != "USD"
            | none => false) then .error .currencyMismatch else
        match paidAmount with
        | none => .error (.amountMismatch (some expectedAmount) none)
        | some paid =>
          if paid ≠ expectedAmount then
            .error (.amountMismatch (some expectedAmount) (some paid))
          else
            .ok (mkSecureOrder books pricing userId pid feePct authorsReceiveDirectly now)

/-- The PayPal-verifying POST / route: on success the order is saved and
the purchased books' sales counters bumped; any error leaves the store
untouched. -/
def createOrderSecure (store : Store) (userId : Nat) (rawItems : List Nat)
    (paymentId : Option String) (discountCode : Option String)
    (paypalFetch : Option PayPalOrderInfo) (feePct : ℚ)
    (authorsReceiveDirectly : Bool) (now : Time) :
    Except OrderError Order × Store :=
  match createOrderSecureResult store userId rawItems paymentId discountCode
      paypalFetch feePct authorsReceiveDirectly now with
  | .error e => (.error e, store)
  | .ok order =>
      (.ok order,
       { store with orders := store.orders ++ [order],
                    catalog := bumpSales store.catalog (rawItems.filter (fun i => i ≠ 0)) })

/-! Platform fee tracking (routes/admin.js and its cycle-based variant). -/

/-- `calcFeeFromNet`: gross up the platform fee from a stored net amount. -/
def calcFeeFromNet (net feePct : ℚ) : ℚ :=
  let rate := feePct / 100
  if rate ≤ 0 ∨ 1 ≤ rate then 0 else net * (rate / (1 - rate))

def THIRTY_DAYS_MS : Time := 30 * 24 * 60 * 60 * 1000

/-- Author trial window end: `createdAt + 30 days`. -/
def trialEndsAt (authorCreatedAt : Time) : Time := authorCreatedAt + THIRTY_DAYS_MS

structure FeeAcc where
  gross : ℚ
  net : ℚ
  feeDue : ℚ
  salesCount : Nat
deriving Repr, DecidableEq

/-- One step of the `perAuthor` map accumulation in GET /fees:
`const acc = perAuthor.get(authorId) || zero; acc.gross += net + fee; ...`. -/
def accumFee : List (Nat × FeeAcc) → Nat → ℚ → ℚ → List (Nat × FeeAcc)
  | [], a, net, fee => [(a, { gross := net + fee, net := net, feeDue := fee, salesCount := 1 })]
  | (b, acc) :: rest, a, net, fee =>
      if b = a then
        (b, { gross := acc.gross + (net + fee), net := acc.net + net,
              feeDue := acc.feeDue + fee, salesCount := acc.salesCount + 1 }) :: rest
      else (b, acc) :: accumFee rest a net fee

/-- GET /fees (calendar-month variant): aggregate completed orders with
`createdAt` in `[start, end)` by breakdown author. Note: the order query
applies no trial-window clamping. -/
def monthlyPerAuthor (orders : List Order) (startT endT : Time) (feePct : ℚ) :
    List (Nat × FeeAcc) :=
  (orders.filter (fun o =>
      o.paymentStatus == PaymentStatus.completed &&
      decide (startT ≤ o.createdAt) && decide (o.createdAt < endT))).foldl
    (fun m o =>
      o.authorEarningsBreakdown.foldl
        (fun m row =>
          if row.author = 0 ∨ row.amount ≤ 0 then m
          else accumFee m row.author row.amount (calcFeeFromNet row.amount feePct))
        m)
    []

/-- `perAuthor.get(String(a._id)) || { gross: 0, net: 0, feeDue: 0, salesCount: 0 }`. -/
def lookupAcc (m : List (Nat × FeeAcc)) (a : Nat) : FeeAcc :=
  match m.find? (fun p => p.1 == a) with
  | some p => p.2
  | none => { gross := 0, net := 0, feeDue := 0, salesCount := 0 }

structure MonthlyFeeRow where
  authorId : Nat
  grossSales : ℚ
  authorNet : ℚ
  platformFeeDue : ℚ
  salesCount : Nat
  isPaid : Bool
  isOverdue : Bool
deriving Repr, DecidableEq

/-- One row of the GET /fees response for an author: fee stats, paid flag
from the PlatformFeeStatus record, and
`isOverdue = !isPaid && now >= dueDate`. -/
def monthlyFeeRow (a : Nat) (perAuthor : List (Nat × FeeAcc))
    (statusIsPaid : Option Bool) (now dueDate : Time) : MonthlyFeeRow :=
  let stats := lookupAcc perAuthor a
  let isPaid := statusIsPaid.getD false
  { authorId := a,
    grossSales := round2 stats.gross,
    authorNet := round2 stats.net,
    platformFeeDue := round2 stats.feeDue,
    salesCount := stats.salesCount,
    isPaid := isPaid,
    isOverdue := !isPaid && decide (dueDate ≤ now) }

structure CycleStats where
  feeDue : ℚ
  grossSales : ℚ
  salesCount : Nat
deriving Repr, DecidableEq

/-- GET /cycle-fees, per author: the last completed cycle is
`[prevStart, prevEnd)`; billable time starts at
`effectiveStart = trialEndsAt > prevStart ? trialEndsAt : prevStart`, and
orders are fetched with `createdAt` in `[effectiveStart, prevEnd)` whose
breakdown mentions the author; the author's (first) breakdown row is
accumulated when positive. -/
def cycleAuthorStats (orders : List Order) (authorId : Nat)
    (authorCreatedAt prevStart prevEnd : Time) (feePct : ℚ) : CycleStats :=
  let tEnd := trialEndsAt authorCreatedAt
  let effectiveStart := if prevStart < tEnd then tEnd else prevStart
  if effectiveStart < prevEnd then
    (orders.filter (fun o =>
        o.paymentStatus == PaymentStatus.completed &&
        decide (effectiveStart ≤ o.createdAt) && decide (o.createdAt < prevEnd) &&
        o.authorEarningsBreakdown.any (fun r => r.author == authorId))).foldl
      (fun acc o =>
        match o.authorEarningsBreakdown.find? (fun r => r.author == authorId) with
        | none => acc
        | some row =>
          if row.amount ≤ 0 then acc
          else
            let fee := calcFeeFromNet row.amount feePct
            { feeDue := acc.feeDue + fee,
              grossSales := acc.grossSales + (row.amount + fee),
              salesCount := acc.salesCount + 1 })
      { feeDue := 0, grossSales := 0, salesCount := 0 }
  else { feeDue := 0, grossSales := 0, salesCount := 0 }

/-- GET /cycle-fees overdue flag:
`overdue = !billing.isInTrial && !isPaid && (now > dueDate)`. -/
def cycleOverdue (isInTrial isPaid : Bool) (now dueDate : Time) : Bool :=
  !isInTrial && !isPaid && decide (dueDate < now)

/-! Mark-paid / mark-unpaid admin routes. -/

def digitVal (c : Char) : Nat := c.toNat - 48

/-- `/^\d{4}-\d{2}$/` plus the falsy / month-range checks of
`parsePeriod` (`!y || !m || m < 1 || m > 12` rejects). -/
def parsePeriod (s : String) : Option (Nat × Nat) :=
  match s.data with
  | [y1, y2, y3, y4, dash, mo1, mo2] =>
      if (y1.isDigit && y2.isDigit && y3.isDigit && y4.isDigit) &&
          dash == Char.ofNat 45 && (mo1.isDigit && mo2.isDigit) then
        let y := ((digitVal y1 * 10 + digitVal y2) * 10 + digitVal y3) * 10 + digitVal y4
        let m := digitVal mo1 * 10 + digitVal mo2
        if y ≠ 0 ∧ m ≠ 0 ∧ m ≤ 12 then some (y, m) else none
      else none
  | _ => none

/-- `PlatformFeeStatus.findOneAndUpdate({author, period}, update, {upsert: true})`:
updates the first document with the composite key, or appends a new one
(the schema holds a unique index on `(author, period)`). -/
def upsertFeeStatus : List FeeStatusRec → Nat → String → Bool → Option Time → String → Time →
    List FeeStatusRec
  | [], a, p, paid, paidAt, note, now =>
      [{ author := a, period := p, isPaid := paid, paidAt := paidAt, note := note,
         updatedAt := now }]
  | s :: rest, a, p, paid, paidAt, note, now =>
      if s.author = a ∧ s.period = p then
        { s with isPaid := paid, paidAt := paidAt, note := note, updatedAt := now } :: rest
      else s :: upsertFeeStatus rest a p paid paidAt note now

/-- `User.findOne({ _id: authorId, role: 'author' })`. -/
def findAuthor (users : List UserRec) (aid : Nat) : Option UserRec :=
  users.find? (fun u => u.id == aid && u.role == "author")

/-- `User.findOneAndUpdate(query, update)`: rewrite the first matching
document. -/
def updateFirstUser (users : List UserRec) (p : UserRec → Bool) (f : UserRec → UserRec) :
    List UserRec :=
  match users with
  | [] => []
  | u :: rest => if p u then f u :: rest else u :: updateFirstUser rest p f

inductive AdminError
  | invalidPeriod
  | authorNotFound
deriving Repr, DecidableEq

/-- The update clearing `isBlocked`, `blockedReason`, `blockedAt`. -/
def clearBlock (u : UserRec) : UserRec :=
  { u with isBlocked := false, blockedReason := none, blockedAt := none }

/-- routes/admin.js POST /fees/:authorId/mark-paid: upserts the paid
status and then automatically unblocks the author. -/
def markPaidMonthlyUnblock (store : Store) (authorId : Nat) (period note : String)
    (now : Time) : Except AdminError Store :=
  if (parsePeriod period).isNone then .error .invalidPeriod else
  match findAuthor store.users authorId with
  | none => .error .authorNotFound
  | some author =>
      .ok { store with
        feeStatuses := upsertFeeStatus store.feeStatuses author.id period true (some now) note now,
        users := updateFirstUser store.users
          (fun u => u.id == author.id && u.role == "author") clearBlock }

/-- The variant POST /fees/:authorId/mark-paid that deliberately does NOT
unblock (admin must call the unblock route separately). -/
def markPaidMonthlyNoUnblock (store : Store) (authorId : Nat) (period note : String)
    (now : Time) : Except AdminError Store :=
  if (parsePeriod period).isNone then .error .invalidPeriod else
  match findAuthor store.users authorId with
  | none => .error .authorNotFound
  | some author =>
      .ok { store with
        feeStatuses := upsertFeeStatus store.feeStatuses author.id period true (some now) note now }

/-- POST /fees/:authorId/mark-unpaid (identical in both route files). -/
def markUnpaidMonthly (store : Store) (authorId : Nat) (period note : String)
    (now : Time) : Except AdminError Store :=
  if (parsePeriod period).isNone then .error .invalidPeriod else
  match findAuthor store.users authorId with
  | none => .error .authorNotFound
  | some author =>
      .ok { store with
        feeStatuses := upsertFeeStatus store.feeStatuses author.id period false none note now }

/-- POST /cycle-fees/:authorId/mark-paid with an explicit period key (no
format validation, no author unblock). -/
def markPaidCycle (store : Store) (authorId : Nat) (key note : String)
    (now : Time) : Except AdminError Store :=
  match findAuthor store.users authorId with
  | none => .error .authorNotFound
  | some author =>
      .ok { store with
        feeStatuses := upsertFeeStatus store.feeStatuses author.id key true (some now) note now }

/-- POST /cycle-fees/:authorId/mark-unpaid with an explicit period key. -/
def markUnpaidCycle (store : Store) (authorId : Nat) (key note : String)
    (now : Time) : Except AdminError Store :=
  match findAuthor store.users authorId with
  | none => .error .authorNotFound
  | some author =>
      .ok { store with
        feeStatuses := upsertFeeStatus store.feeStatuses author.id key false none note now }

/-! File serving (routes/files.js and its buyer-protected variant). -/

/-- `name.replace(/[^a-zA-Z0-9.\-_]/g, '')`, then reject empty names. -/
def allowedChar (c : Char) : Bool :=
  c.isAlpha || c.isDigit || c == Char.ofNat 46 || c == Char.ofNat 45 || c == Char.ofNat 95

def safeFilename (name : String) : Option String :=
  let s := String.mk (name.toList.filter allowedChar)
  if s.length = 0 then none else some s

/-- Suffix test on the character lists: the anchored-at-the-end regex
`uploads\/books\/<filename>$` matches `pdfFile` exactly when the path
ends with that suffix. -/
def strEndsWith (s suffix : String) : Bool :=
  decide (suffix.data.length ≤ s.data.length) &&
    s.data.drop (s.data.length - suffix.data.length) == suffix.data

inductive ServeOutcome
  | served (filename : String)
  | clientError
  | notFound
  | forbidden
deriving Repr, DecidableEq

/-- `Order.exists({ customer, paymentStatus: 'completed', 'items.book': bookId })`. -/
def hasCompletedOrderFor (orders : List Order) (userId bookId : Nat) : Bool :=
  orders.any (fun o =>
    o.customer == userId && o.paymentStatus == PaymentStatus.completed &&
    o.items.any (fun it => it.book == bookId))

/-- The buyer-protected GET /book/:filename variant: locate the book owning
the PDF (by `pdfFile` ending in `uploads/books/<filename>`) and serve only
when the requesting customer has a completed order containing it. -/
def serveBookPdfProtected (catalog : List Book) (orders : List Order)
    (files : List String) (userId : Nat) (rawName : String) : ServeOutcome :=
  match safeFilename rawName with
  | none => .clientError
  | some filename =>
    if !files.contains filename then .notFound else
    match catalog.find? (fun b => strEndsWith b.pdfFile ("uploads/books/" ++ filename)) with
    | none => .notFound
    | some book =>
      if hasCompletedOrderFor orders userId book.id then .served filename
      else .forbidden

/-- routes/files.js GET /book/:filename: serves any existing PDF with no
authentication and no purchase check. -/
def serveBookPdfPublic (files : List String) (rawName : String) : ServeOutcome :=
  match safeFilename rawName with
  | none => .clientError
  | some filename =>
    if files.contains filename then .served filename else .notFound

/-- GET /cover/:filename (both variants): public, no purchase check. -/
def serveCoverPublic (files : List String) (rawName : String) : ServeOutcome :=
  match safeFilename rawName with
  | none => .clientError
  | some filename =>
    if files.contains filename then .served filename else .notFound

/-- Number of PlatformFeeStatus records with the composite key. -/
def countKey (l : List FeeStatusRec) (a : Nat) (p : String) : Nat :=
  (l.filter (fun s => decide (s.author = a ∧ s.period = p))).length

/-- The first PlatformFeeStatus record with the composite key. -/
def findKey (l : List FeeStatusRec) (a : Nat) (p : String) : Option FeeStatusRec :=
  l.find? (fun s => decide (s.author = a ∧ s.period = p))

/-! Concrete stores and documents used by the counterexamples and
witnesses below. -/

def defaultOrder : Order :=
  { customer := 0, items := [], totalAmount := 0, platformEarnings := 0,
    authorEarnings := 0, authorEarningsBreakdown := [], paymentId := "",
    paymentStatus := .pending, discountCode := none, discountPercentage := none,
    discountAmount := none, createdAt := 0 }

def defaultStore : Store :=
  { catalog := [], coupons := [], orders := [], users := [], feeStatuses := [] }

def pennyBook (i : Nat) : Book :=
  { id := i, author := 7, price := 1/100, isDeleted := false, salesCount := 0, pdfFile := "" }

/-- Five one-cent books: a cart on which per-item rounding visibly differs
from rounding the discounted cart total once. -/
def c4Catalog : List Book := [pennyBook 1, pennyBook 2, pennyBook 3, pennyBook 4, pennyBook 5]

def c4Coupon : Coupon :=
  { code := "HALF", discountPercentage := 50, scope := .all, author := none,
    isActive := true, validFrom := none, validTo := none }

def c4wCatalog : List Book :=
  [{ id := 1, author := 7, price := 10, isDeleted := false, salesCount := 0, pdfFile := "" }]

def c5Catalog : List Book :=
  [{ id := 1, author := 5, price := 10, isDeleted := false, salesCount := 0, pdfFile := "" },
   { id := 2, author := 6, price := 4, isDeleted := false, salesCount := 0, pdfFile := "" }]

def c5Coupon : Coupon :=
  { code := "AUTH5", discountPercentage := 20, scope := .author, author := some 5,
    isActive := true, validFrom := none, validTo := none }

def c6Catalog : List Book :=
  [{ id := 1, author := 7, price := 10, isDeleted := false, salesCount := 0, pdfFile := "" }]

/-- Expired AND inactive: the route reports it inactive, not expired. -/
def c6Coupon : Coupon :=
  { code := "OLD", discountPercentage := 10, scope := .all, author := none,
    isActive := false, validFrom := none, validTo := some (-5) }

/-- Expired but active: used to witness the amended expiry behaviour. -/
def c6wCoupon : Coupon :=
  { code := "GONE", discountPercentage := 10, scope := .all, author := none,
    isActive := true, validFrom := none, validTo := some (-5) }

/-- A completed order placed 5ms after author 1 registered (t = 0), inside
the 30-day trial, with a net author amount of 9. -/
def c2Order : Order :=
  { customer := 2, items := [{ book := 1, price := 10 }], totalAmount := 10,
    platformEarnings := 1, authorEarnings := 9,
    authorEarningsBreakdown := [{ author := 1, amount := 9, paidOut := false }],
    paymentId := "P", paymentStatus := .completed, discountCode := none,
    discountPercentage := none, discountAmount := none, createdAt := 5 }

def c7wStore : Store :=
  { catalog := [{ id := 1, author := 7, price := 10, isDeleted := false, salesCount := 0, pdfFile := "" }],
    coupons := [], orders := [], users := [], feeStatuses := [] }

def c7wPayPal : PayPalOrderInfo :=
  { status := "COMPLETED", amount := some { value := some 10, currency := some "USD" } }

def c7wOrder : Order :=
  (createOrderSecure c7wStore 1 [1] (some "PAY") none (some c7wPayPal) 10 true 0).1.toOption.getD
    defaultOrder

def c1Store : Store :=
  { catalog := [{ id := 1, author := 7, price := 10, isDeleted := false, salesCount := 0, pdfFile := "" }],
    coupons := [], orders := [], users := [], feeStatuses := [] }

def c3Catalog : List Book :=
  [{ id := 1, author := 7, price := 10, isDeleted := false, salesCount := 0,
     pdfFile := "uploads/books/b.pdf" }]

def c9Store : Store :=
  { catalog := [], coupons := [], orders := [],
    users := [{ id := 1, role := "author", createdAt := 0, isBlocked := true,
                blockedReason := some "fees", blockedAt := some 3 }],
    feeStatuses := [] }

def c10Store : Store := c9Store

def c10PaidUnblock : Store :=
  (markPaidMonthlyUnblock c10Store 1 "2026-01" "ok" 5).toOption.getD defaultStore

def c10PaidNoUnblock : Store :=
  (markPaidMonthlyNoUnblock c10Store 1 "2026-01" "ok" 5).toOption.getD defaultStore

/-! Counterexample theorems: each refutes its claim as stated at an
explicit concrete input. -/

/-- C4 counterexample: for a cart of five one-cent books under an active
scope=all 50% coupon, the pricing total is 0.05 while
round(originalTotal * (1 - p/100), 2) is 0.03: the per-item two-decimal
rounding makes the claimed formula wrong by 0.02, which is not a
floating-point-sized discrepancy. -/
theorem c4_per_item_rounding_breaks_global_formula :
    (calculateCartPricing c4Catalog [c4Coupon] [1, 2, 3, 4, 5] (some "HALF") 0).toOption.map
      PricingResult.total = some (5/100) ∧
    round2 ((5/100) * (1 - 50/100)) = 3/100 ∧
    ¬ ((5 : ℚ)/100 - 3/100 ≤ 1/100) := by
  refine ⟨?_, ?_, by norm_num⟩
  · norm_num [calculateCartPricing, fetchBooks, c4Catalog, c4Coupon, pennyBook,
      discountedItemFor, couponEligible, bookSum, beforeWindow, afterWindow,
      round2, round_eq, List.find?, Except.toOption,
      show normalizeCode "HALF" = "HALF" from by decide]
    exact ⟨_, rfl, rfl⟩
  · norm_num [round2, round_eq]

/-- C6 counterexample: a coupon whose validTo is in the past but whose
isActive flag is false fails with the not-active error, not the expired
error, because the active check runs first. -/
theorem c6_inactive_expired_gives_not_active_error :
    c6Coupon.validTo = some (-5) ∧ ((-5 : Time) < 0) ∧ c6Coupon.isActive = false ∧
    calculateCartPricing c6Catalog [c6Coupon] [1] (some "OLD") 0 =
      .error PricingError.notActive ∧
    calculateCartPricing c6Catalog [c6Coupon] [1] (some "OLD") 0 ≠
      .error PricingError.expired := by
  refine ⟨rfl, by decide, rfl, ?_, ?_⟩
  · simp [calculateCartPricing, c6Catalog, c6Coupon,
      show normalizeCode "OLD" = "OLD" from by decide]
  · simp [calculateCartPricing, c6Catalog, c6Coupon,
      show normalizeCode "OLD" = "OLD" from by decide]

/-- C2 counterexample: in the calendar-month fee computation (GET /fees),
a completed order created at t = 5, before author 1's trialEndsAt
(t = 2592000000), still contributes gross 10, net 9, feeDue 1 and one sale
to that author's period stats: the monthly query applies no trial
clamping. -/
theorem c2_monthly_counts_trial_sales :
    c2Order.createdAt < trialEndsAt 0 ∧
    c2Order.paymentStatus = PaymentStatus.completed ∧
    lookupAcc (monthlyPerAuthor [c2Order] 0 10 10) 1 =
      { gross := 10, net := 9, feeDue := 1, salesCount := 1 } ∧
    (lookupAcc (monthlyPerAuthor [c2Order] 0 10 10) 1).feeDue ≠ 0 := by
  have h : lookupAcc (monthlyPerAuthor [c2Order] 0 10 10) 1 =
      { gross := 10, net := 9, feeDue := 1, salesCount := 1 } := by
    norm_num [lookupAcc, monthlyPerAuthor, c2Order, accumFee, calcFeeFromNet,
      List.find?, List.filter]
  refine ⟨by decide, rfl, h, by rw [h]; norm_num⟩

/-- C8 counterexample: an author with no sales (fee due 0), no paid
status record, and a due date that has arrived is reported overdue by the
GET /fees row computation, contradicting the claim that a zero fee due is
never overdue. -/
theorem c8_zero_fee_reported_overdue :
    (monthlyFeeRow 1 [] none 10 10).isOverdue = true ∧
    (monthlyFeeRow 1 [] none 10 10).platformFeeDue = 0 ∧
    (monthlyFeeRow 1 [] none 10 10).isPaid = false := by
  refine ⟨?_, ?_, ?_⟩ <;>
    norm_num [monthlyFeeRow, lookupAcc, round2, round_eq, List.find?]

/-- C1 counterexample: the routes/orders.js endpoint persists an order
(and bumps salesCount) whose totalAmount 0.01 was dictated by a
client-supplied discountAmount of 9.99, while the Pricing Engine total for
the same cart is 10; no payment verification ever ran, so an Order is
created without verification succeeding against the computed total. -/
theorem c1_plain_persists_without_verification :
    (createOrderPlain c1Store 1 [1] "PAY" none none (some (999/100)) 10 0).1.toOption.map
      Order.totalAmount = some (1/100) ∧
    (createOrderPlain c1Store 1 [1] "PAY" none none (some (999/100)) 10 0).2.orders.length = 1 ∧
    (createOrderPlain c1Store 1 [1] "PAY" none none (some (999/100)) 10 0).2.catalog.map
      Book.salesCount = [1] ∧
    (calculateCartPricing c1Store.catalog c1Store.coupons [1] none 0).toOption.map
      PricingResult.total = some 10 ∧
    ((1 : ℚ)/100) ≠ 10 := by
  refine ⟨?_, ?_, ?_, ?_, by norm_num⟩
  · norm_num [createOrderPlain, createOrderPlainResult, mkPlainOrder, plainChosen,
      fetchBooks, bookSum, buildEarningsMapPlainJs, addEarningJs, jsDiv, jsCMul,
      jsMulC, JsNum.isNan, c1Store, Except.toOption, List.find?, List.filterMap]
  · norm_num [createOrderPlain, createOrderPlainResult, mkPlainOrder, plainChosen,
      fetchBooks, bookSum, buildEarningsMapPlainJs, addEarningJs, jsDiv, jsCMul,
      jsMulC, JsNum.isNan, c1Store, Except.toOption, List.find?, List.filterMap]
  · norm_num [createOrderPlain, createOrderPlainResult, mkPlainOrder, plainChosen,
      fetchBooks, bookSum, buildEarningsMapPlainJs, addEarningJs, jsDiv, jsCMul,
      jsMulC, JsNum.isNan, bumpSales, c1Store, Except.toOption, List.find?,
      List.filterMap]
  · norm_num [calculateCartPricing, fetchBooks, bookSum, c1Store, round2, round_eq,
      Except.toOption]

/-- C3 counterexample: the routes/files.js PDF route serves an existing
book file although no completed order exists anywhere in the system for
the requesting customer and the owning book. -/
theorem c3_public_route_serves_without_purchase :
    serveBookPdfPublic ["b.pdf"] "b.pdf" = ServeOutcome.served "b.pdf" ∧
    (c3Catalog.find? (fun b => strEndsWith b.pdfFile ("uploads/books/" ++ "b.pdf"))).isSome ∧
    hasCompletedOrderFor ([] : List Order) 1 1 = false := by
  refine ⟨by decide, by decide, rfl⟩

/-! Amended / confirmed claim theorems. -/

/-- C8 (amended): in the calendar-month fee rows, isOverdue is true exactly
when the status is unpaid and the due date has been reached — with NO
condition on the fee due; in the cycle rows, overdue is true exactly when
the author is out of trial, unpaid, and now is strictly past the due
date — again with no condition on the fee due. -/
theorem c8_overdue_characterization :
    (∀ (a : Nat) (perAuthor : List (Nat × FeeAcc)) (st : Option Bool) (now dueDate : Time),
      ((monthlyFeeRow a perAuthor st now dueDate).isOverdue = true ↔
        ((monthlyFeeRow a perAuthor st now dueDate).isPaid = false ∧ dueDate ≤ now))) ∧
    (∀ (isInTrial isPaid : Bool) (now dueDate : Time),
      (cycleOverdue isInTrial isPaid now dueDate = true ↔
        (isInTrial = false ∧ isPaid = false ∧ dueDate < now))) := by
  constructor
  · intro a perAuthor st now dueDate
    simp [monthlyFeeRow]
  · intro t p now dueDate
    simp [cycleOverdue]
    tauto

/-- C2 (amended): the anniversary-cycle fee computation is unchanged when
all orders created before the author's trialEndsAt are removed up front:
pre-trial completed orders contribute nothing to grossSales, feeDue or
salesCount there. (The calendar-month GET /fees computation does count
them; see the counterexample.) -/
theorem c2_cycle_excludes_trial_sales :
    ∀ (orders : List Order) (authorId : Nat) (authorCreatedAt prevStart prevEnd : Time)
      (feePct : ℚ),
      cycleAuthorStats orders authorId authorCreatedAt prevStart prevEnd feePct =
      cycleAuthorStats
        (orders.filter (fun o => decide (trialEndsAt authorCreatedAt ≤ o.createdAt)))
        authorId authorCreatedAt prevStart prevEnd feePct := by
  intro orders authorId aCreated prevStart prevEnd feePct
  simp only [cycleAuthorStats]
  set tEnd := trialEndsAt aCreated with htEnd
  set eff := if prevStart < tEnd then tEnd else prevStart with heff
  clear_value tEnd
  by_cases h : eff < prevEnd
  · simp only [if_pos h]
    congr 1
    rw [List.filter_filter]
    apply List.filter_congr
    intro o _
    by_cases hq : tEnd ≤ o.createdAt
    · simp [hq]
    · have hne : ¬ (eff ≤ o.createdAt) := by
        rw [heff]
        by_cases hps : prevStart < tEnd
        · rw [if_pos hps]; exact hq
        · rw [if_neg hps]
          intro hle
          exact hq (le_trans (not_lt.mp hps) hle)
      simp [hq, hne]
  · simp only [if_neg h]

/-- C3 (amended): in the buyer-protected file route, a book PDF is served
only when a completed order by the requesting customer contains the book
owning that PDF; with no such order the request is never served; cover
images are served with no purchase check. (The routes/files.js variant
serves PDFs without any check; see the counterexample.) -/
theorem c3_protected_route_requires_completed_order (catalog : List Book) (orders : List Order) (files : List String)
    (userId : Nat) (rawName : String) :
    (∀ fn, serveBookPdfProtected catalog orders files userId rawName = .served fn →
       ∃ b, catalog.find? (fun x => strEndsWith x.pdfFile ("uploads/books/" ++ fn)) = some b ∧
         hasCompletedOrderFor orders userId b.id = true) ∧
    ((∀ bId, hasCompletedOrderFor orders userId bId = false) →
       ∀ fn, serveBookPdfProtected catalog orders files userId rawName ≠ .served fn) ∧
    (∀ fn, safeFilename rawName = some fn → files.contains fn = true →
       serveCoverPublic files rawName = .served fn) := by
  have main : ∀ fn, serveBookPdfProtected catalog orders files userId rawName = .served fn →
      ∃ b, catalog.find? (fun x => strEndsWith x.pdfFile ("uploads/books/" ++ fn)) = some b ∧
        hasCompletedOrderFor orders userId b.id = true := by
    intro fn h
    unfold serveBookPdfProtected at h
    split at h
    · exact absurd h (by simp)
    · rename_i filename hsf
      split at h
      · exact absurd h (by simp)
      · split at h
        · exact absurd h (by simp)
        · rename_i book hfind
          split at h
          · rename_i hhas
            have : filename = fn := by
              injection h
            subst this
            exact ⟨book, hfind, hhas⟩
          · exact absurd h (by simp)
  refine ⟨main, ?_, ?_⟩
  · intro hnone fn h
    obtain ⟨b, _, hb⟩ := main fn h
    rw [hnone b.id] at hb
    exact absurd hb (by simp)
  · intro fn hsf hc
    unfold serveCoverPublic
    rw [hsf]
    show (if files.contains fn = true then ServeOutcome.served fn else ServeOutcome.notFound) =
      ServeOutcome.served fn
    rw [if_pos hc]


/-- C3 witness: with no orders at all, the protected route refuses to serve
the existing book PDF. -/
theorem c3_protected_route_requires_completed_order_witness :
    serveBookPdfProtected c3Catalog [] ["b.pdf"] 1 "b.pdf" ≠ ServeOutcome.served "b.pdf" :=
  (c3_protected_route_requires_completed_order c3Catalog [] ["b.pdf"] 1 "b.pdf").2.1
    (fun _ => rfl) "b.pdf"

/-- C6 (amended): a coupon whose validTo lies in the past never applies to
any non-empty cart; the reported error is the expired error when the
coupon is active (and not still before its validFrom), and the not-active
error otherwise. -/
theorem c6_expired_coupon_never_applies (catalog : List Book) (coupons : List Coupon) (bookIds : List Nat)
    (raw : String) (c : Coupon) (now t : Time)
    (hne : bookIds ≠ [])
    (hfind : coupons.find? (fun x => x.code == normalizeCode raw) = some c)
    (hto : c.validTo = some t) (ht : t < now) :
    (∀ r, calculateCartPricing catalog coupons bookIds (some raw) now ≠ .ok r) ∧
    (c.isActive = true → beforeWindow c now = false →
      calculateCartPricing catalog coupons bookIds (some raw) now = .error .expired) := by
  have hemp : bookIds.isEmpty = false := by
    cases bookIds with
    | nil => exact absurd rfl hne
    | cons a l => rfl
  have hafter : afterWindow c now = true := by
    simp [afterWindow, hto, ht]
  constructor
  · intro r hok
    unfold calculateCartPricing at hok
    rw [hemp] at hok
    simp only [Bool.false_eq_true, if_false, hfind] at hok
    by_cases hact : c.isActive
    · rw [hact] at hok
      simp only [Bool.not_true, Bool.false_eq_true, if_false] at hok
      by_cases hb : beforeWindow c now
      · rw [hb] at hok
        simp at hok
      · simp only [hb, Bool.false_eq_true, if_false, hafter, if_true] at hok
        exact absurd hok (by simp)
    · have : c.isActive = false := by
        revert hact; cases c.isActive <;> simp
      rw [this] at hok
      simp at hok
  · intro hact hb
    unfold calculateCartPricing
    rw [hemp]
    simp only [Bool.false_eq_true, if_false, hfind, hact, hb, hafter,
      Bool.not_true, if_true]


/-- C6 witness: an active expired coupon fails with the expired error. -/
theorem c6_expired_coupon_never_applies_witness :
    calculateCartPricing c6Catalog [c6wCoupon] [1] (some "GONE") 5 =
      .error PricingError.expired :=
  (c6_expired_coupon_never_applies c6Catalog [c6wCoupon] [1] "GONE" c6wCoupon 5 (-5)
    (by decide) (by decide) rfl (by decide)).2 rfl rfl

/-- When the coupon is found, active, inside its validity window and not
scope-blocked, `calculateCartPricing` returns the discounted result. -/
theorem pricing_coupon_branch (catalog : List Book) (coupons : List Coupon)
    (bookIds : List Nat) (raw : String) (c : Coupon) (now : Time)
    (hne : bookIds ≠ [])
    (hfind : coupons.find? (fun x => x.code == normalizeCode raw) = some c)
    (hact : c.isActive = true) (hb : beforeWindow c now = false)
    (ha : afterWindow c now = false)
    (hsc : (c.scope == CouponScope.author &&
        !((fetchBooks catalog bookIds).any (fun b => c.author == some b.author))) = false) :
    calculateCartPricing catalog coupons bookIds (some raw) now =
      .ok { books := fetchBooks catalog bookIds,
            originalTotal := round2 (bookSum (fetchBooks catalog bookIds)),
            discountAmount := round2 (max 0 (bookSum (fetchBooks catalog bookIds) -
              (((fetchBooks catalog bookIds).map (discountedItemFor c)).map
                (fun i => i.discountedPrice)).sum)),
            total := round2 ((((fetchBooks catalog bookIds).map (discountedItemFor c)).map
              (fun i => i.discountedPrice)).sum),
            discountCode := some c.code,
            discountPercentage := some c.discountPercentage,
            discountedItems := (fetchBooks catalog bookIds).map (discountedItemFor c) } := by
  have hemp : bookIds.isEmpty = false := by
    cases bookIds with
    | nil => exact absurd rfl hne
    | cons a l => rfl
  unfold calculateCartPricing
  rw [hemp]
  simp only [Bool.false_eq_true, if_false, hfind, hact, hb, ha, hsc, Bool.not_true,
    if_true]

/-- When the coupon is author-scoped and no fetched book is by the bound
author, `calculateCartPricing` fails with the scope-mismatch error naming
the author. -/
theorem pricing_scope_mismatch (catalog : List Book) (coupons : List Coupon)
    (bookIds : List Nat) (raw : String) (c : Coupon) (now : Time)
    (hne : bookIds ≠ [])
    (hfind : coupons.find? (fun x => x.code == normalizeCode raw) = some c)
    (hact : c.isActive = true) (hb : beforeWindow c now = false)
    (ha : afterWindow c now = false)
    (hsc : (c.scope == CouponScope.author &&
        !((fetchBooks catalog bookIds).any (fun b => c.author == some b.author))) = true) :
    calculateCartPricing catalog coupons bookIds (some raw) now =
      .error (.scopeMismatch c.author) := by
  have hemp : bookIds.isEmpty = false := by
    cases bookIds with
    | nil => exact absurd rfl hne
    | cons a l => rfl
  unfold calculateCartPricing
  rw [hemp]
  simp only [Bool.false_eq_true, if_false, hfind, hact, hb, ha, hsc, Bool.not_true,
    if_true]


/-- A rational that is a whole number of cents is fixed by `round2`. -/
theorem round2_eq_self_of_cent (q : ℚ) (h : ∃ k : ℤ, q * 100 = k) : round2 q = q := by
  obtain ⟨k, hk⟩ := h
  unfold round2
  rw [hk, round_intCast, eq_comm, eq_div_iff (by norm_num : (100 : ℚ) ≠ 0)]
  exact hk

/-- C4 (amended): for an active in-window scope=all coupon of percentage p
on a non-empty cart, the pricing total equals the two-decimal rounding of
the sum of the per-item two-decimal-rounded discounted prices; whenever
every item's discounted price is a whole number of cents this coincides
with round(originalTotal * (1 - p/100), 2), but in general the per-item
rounding can move the total away from that formula (see the
counterexample). -/
theorem c4_scope_all_total_formula (catalog : List Book) (coupons : List Coupon)
    (bookIds : List Nat) (raw : String) (c : Coupon) (now : Time)
    (hne : bookIds ≠ [])
    (hfind : coupons.find? (fun x => x.code == normalizeCode raw) = some c)
    (hscope : c.scope = CouponScope.all) (hact : c.isActive = true)
    (hb : beforeWindow c now = false) (ha : afterWindow c now = false)
    (hp1 : c.discountPercentage ≤ 100)
    (hpr : ∀ b ∈ fetchBooks catalog bookIds, 0 ≤ b.price) :
    ∃ r, calculateCartPricing catalog coupons bookIds (some raw) now = .ok r ∧
      r.total = round2 (((fetchBooks catalog bookIds).map
        (fun b => round2 (b.price * (1 - c.discountPercentage / 100)))).sum) ∧
      ((∀ b ∈ fetchBooks catalog bookIds,
          ∃ k : ℤ, b.price * (1 - c.discountPercentage / 100) * 100 = k) →
        r.total = round2 (bookSum (fetchBooks catalog bookIds) *
          (1 - c.discountPercentage / 100))) := by
  have hsc : (c.scope == CouponScope.author &&
      !((fetchBooks catalog bookIds).any (fun b => c.author == some b.author))) = false := by
    simp [hscope]
  have hmap : (((fetchBooks catalog bookIds).map (discountedItemFor c)).map
      (fun i => i.discountedPrice)) =
      (fetchBooks catalog bookIds).map
        (fun b => round2 (b.price * (1 - c.discountPercentage / 100))) := by
    rw [List.map_map]
    apply List.map_congr_left
    intro b hb
    have hel : couponEligible c b = true := by simp [couponEligible, hscope]
    simp only [Function.comp_apply, discountedItemFor, hel, if_true]
    congr 1
    have h1 : b.price - b.price * (c.discountPercentage / 100) =
        b.price * (1 - c.discountPercentage / 100) := by ring
    rw [h1, max_eq_right]
    exact mul_nonneg (hpr b hb) (by linarith)
  refine ⟨_, pricing_coupon_branch catalog coupons bookIds raw c now hne hfind hact hb ha hsc,
    ?_, ?_⟩
  · simp only [hmap]
  · intro hcent
    have hfix : (fetchBooks catalog bookIds).map
        (fun b => round2 (b.price * (1 - c.discountPercentage / 100))) =
        (fetchBooks catalog bookIds).map
          (fun b => b.price * (1 - c.discountPercentage / 100)) :=
      List.map_congr_left (fun b hb => round2_eq_self_of_cent _ (hcent b hb))
    simp only [hmap, hfix, List.sum_map_mul_right, bookSum]



/-- C4 witness: a one-book 10-dollar cart under the 50% coupon. -/
theorem c4_scope_all_total_formula_witness :
    ∃ r, calculateCartPricing c4wCatalog [c4Coupon] [1] (some "HALF") 0 = .ok r ∧
      r.total = round2 (((fetchBooks c4wCatalog [1]).map
        (fun b => round2 (b.price * (1 - c4Coupon.discountPercentage / 100)))).sum) ∧
      ((∀ b ∈ fetchBooks c4wCatalog [1],
          ∃ k : ℤ, b.price * (1 - c4Coupon.discountPercentage / 100) * 100 = k) →
        r.total = round2 (bookSum (fetchBooks c4wCatalog [1]) *
          (1 - c4Coupon.discountPercentage / 100))) :=
  c4_scope_all_total_formula c4wCatalog [c4Coupon] [1] "HALF" c4Coupon 0
    (by decide) rfl rfl rfl rfl rfl (by norm_num [c4Coupon])
    (by intro b hb
        simp only [fetchBooks, c4wCatalog, List.filter, List.contains] at hb
        simp at hb
        subst hb
        norm_num)

/-- C5 (confirmed): an author-scoped coupon fails with the scope-mismatch
error naming the bound author on any non-empty cart with no book by that
author; on a cart containing one, it discounts exactly that author's
items by the coupon percentage while every other item passes through with
its price unchanged and no discount. -/
theorem c5_author_scope_coupon (catalog : List Book) (coupons : List Coupon)
    (bookIds : List Nat) (raw : String) (c : Coupon) (now : Time) (aId : Nat)
    (hne : bookIds ≠ [])
    (hfind : coupons.find? (fun x => x.code == normalizeCode raw) = some c)
    (hscope : c.scope = CouponScope.author) (hauth : c.author = some aId)
    (hact : c.isActive = true)
    (hb : beforeWindow c now = false) (ha : afterWindow c now = false)
    (hp1 : c.discountPercentage ≤ 100)
    (hpr : ∀ b ∈ fetchBooks catalog bookIds, 0 ≤ b.price) :
    ((∀ b ∈ fetchBooks catalog bookIds, b.author ≠ aId) →
      calculateCartPricing catalog coupons bookIds (some raw) now =
        .error (.scopeMismatch (some aId))) ∧
    ((∃ b ∈ fetchBooks catalog bookIds, b.author = aId) →
      ∃ r, calculateCartPricing catalog coupons bookIds (some raw) now = .ok r ∧
        r.discountedItems = (fetchBooks catalog bookIds).map (discountedItemFor c) ∧
        (∀ b ∈ fetchBooks catalog bookIds, b.author = aId →
          discountedItemFor c b =
            { bookId := b.id, originalPrice := round2 b.price,
              discountedPrice := round2 (b.price * (1 - c.discountPercentage / 100)),
              discountAmount := round2 (b.price * (c.discountPercentage / 100)),
              isDiscounted := true }) ∧
        (∀ b ∈ fetchBooks catalog bookIds, b.author ≠ aId →
          discountedItemFor c b =
            { bookId := b.id, originalPrice := round2 b.price,
              discountedPrice := round2 b.price,
              discountAmount := 0, isDiscounted := false })) := by
  constructor
  · intro hnone
    have hsc : (c.scope == CouponScope.author &&
        !((fetchBooks catalog bookIds).any (fun b => c.author == some b.author))) = true := by
      simp only [hscope, hauth, Bool.and_eq_true]
      refine ⟨by simp, ?_⟩
      rw [Bool.not_eq_true', List.any_eq_false]
      intro b hbmem
      simp only [beq_iff_eq, Option.some.injEq]
      exact fun he => hnone b hbmem he.symm
    have := pricing_scope_mismatch catalog coupons bookIds raw c now hne hfind hact hb ha hsc
    rw [this, hauth]
  · intro ⟨b0, hb0, hb0a⟩
    have hsc : (c.scope == CouponScope.author &&
        !((fetchBooks catalog bookIds).any (fun b => c.author == some b.author))) = false := by
      simp only [hauth, Bool.and_eq_false_iff]
      right
      rw [Bool.not_eq_false', List.any_eq_true]
      exact ⟨b0, hb0, by simp [hb0a]⟩
    refine ⟨_, pricing_coupon_branch catalog coupons bookIds raw c now hne hfind hact hb ha hsc,
      rfl, ?_, ?_⟩
    · intro b hbm hba
      have hel : couponEligible c b = true := by
        simp [couponEligible, hscope, hauth, hba]
      simp only [discountedItemFor, hel, if_true]
      have h1 : max 0 (b.price - b.price * (c.discountPercentage / 100)) =
          b.price * (1 - c.discountPercentage / 100) := by
        rw [max_eq_right]
        · ring
        · have := hpr b hbm
          nlinarith
      rw [h1]
    · intro b hbm hba
      have hel : couponEligible c b = false := by
        simp only [couponEligible, hscope, hauth]
        simp only [Bool.or_eq_false_iff, Bool.and_eq_false_iff]
        refine ⟨by simp, Or.inr ?_⟩
        simp only [beq_eq_false_iff_ne, ne_eq, Option.some.injEq]
        exact fun he => hba he.symm
      simp only [discountedItemFor, hel, Bool.false_eq_true, if_false]
      have h1 : max 0 (b.price - 0) = b.price := by
        rw [sub_zero, max_eq_right (hpr b hbm)]
      have h2 : round2 (0 : ℚ) = 0 := by simp [round2]
      rw [h1, h2]


/-- C5 witness: the author-5 coupon rejects a cart holding only the
author-6 book. -/
theorem c5_author_scope_coupon_witness :
    calculateCartPricing c5Catalog [c5Coupon] [2] (some "AUTH5") 0 =
      .error (.scopeMismatch (some 5)) :=
  (c5_author_scope_coupon c5Catalog [c5Coupon] [2] "AUTH5" c5Coupon 0 5
    (by decide) rfl rfl rfl rfl rfl rfl (by norm_num [c5Coupon])
    (by intro b hb
        simp only [fetchBooks, c5Catalog] at hb
        simp at hb
        subst hb
        norm_num)).1
    (by intro b hb
        simp only [fetchBooks, c5Catalog] at hb
        simp at hb
        subst hb
        decide)

/-- Upserting by a composite key leaves exactly one record with that key
when at most one was present. -/
theorem countKey_upsert (l : List FeeStatusRec) (a : Nat) (p : String) (v : Bool)
    (t : Option Time) (n : String) (now : Time) :
    countKey (upsertFeeStatus l a p v t n now) a p =
      if countKey l a p = 0 then 1 else countKey l a p := by
  induction l with
  | nil => simp [upsertFeeStatus, countKey]
  | cons s rest ih =>
    by_cases hk : s.author = a ∧ s.period = p
    · simp only [upsertFeeStatus, if_pos hk, countKey, List.filter]
      simp [hk.1, hk.2, countKey]
    · simp only [upsertFeeStatus, if_neg hk, countKey, List.filter]
      have : (decide (s.author = a ∧ s.period = p)) = false := by
        simpa using hk
      rw [this]
      simpa [countKey] using ih

theorem findKey_upsert (l : List FeeStatusRec) (a : Nat) (p : String) (v : Bool)
    (t : Option Time) (n : String) (now : Time) :
    findKey (upsertFeeStatus l a p v t n now) a p =
      some (match findKey l a p with
        | some s => { s with isPaid := v, paidAt := t, note := n, updatedAt := now }
        | none => { author := a, period := p, isPaid := v, paidAt := t, note := n,
                    updatedAt := now }) := by
  induction l with
  | nil => simp [upsertFeeStatus, findKey, List.find?]
  | cons s rest ih =>
    by_cases hk : s.author = a ∧ s.period = p
    · simp [upsertFeeStatus, if_pos hk, findKey, List.find?, hk.1, hk.2]
    · have hd : (decide (s.author = a ∧ s.period = p)) = false := by simpa using hk
      simp only [upsertFeeStatus, if_neg hk, findKey, List.find?, hd]
      simpa [findKey] using ih

theorem upsert_upsert (l : List FeeStatusRec) (a : Nat) (p : String) (v : Bool)
    (t : Option Time) (n : String) (now : Time) :
    upsertFeeStatus (upsertFeeStatus l a p v t n now) a p v t n now =
      upsertFeeStatus l a p v t n now := by
  induction l with
  | nil =>
    simp [upsertFeeStatus]
  | cons s rest ih =>
    by_cases hk : s.author = a ∧ s.period = p
    · simp [upsertFeeStatus, if_pos hk, hk.1, hk.2]
    · simp [upsertFeeStatus, if_neg hk, ih]


theorem findAuthor_key (users : List UserRec) (a : Nat) (u : UserRec)
    (h : findAuthor users a = some u) : u.id = a ∧ u.role = "author" := by
  have := List.find?_some h
  simpa [Bool.and_eq_true, beq_iff_eq] using this

theorem findAuthor_updateFirst (users : List UserRec) (a : Nat) :
    findAuthor (updateFirstUser users (fun x => x.id == a && x.role == "author") clearBlock) a
      = (findAuthor users a).map clearBlock := by
  induction users with
  | nil => simp [updateFirstUser, findAuthor, List.find?]
  | cons u rest ih =>
    by_cases hp : (u.id == a && u.role == "author") = true
    · have hp2 : ((clearBlock u).id == a && (clearBlock u).role == "author") = true := hp
      simp only [updateFirstUser, if_pos hp, findAuthor, List.find?, hp, hp2,
        Option.map_some']
    · have hpf : (u.id == a && u.role == "author") = false := by
        revert hp
        cases (u.id == a && u.role == "author") <;> simp
      simp only [updateFirstUser, hpf, Bool.false_eq_true, if_false, findAuthor,
        List.find?]
      simpa [findAuthor] using ih

theorem updateFirst_clearBlock_idem (users : List UserRec) (q : UserRec → Bool)
    (hq : ∀ u, q (clearBlock u) = q u) :
    updateFirstUser (updateFirstUser users q clearBlock) q clearBlock =
      updateFirstUser users q clearBlock := by
  induction users with
  | nil => rfl
  | cons u rest ih =>
    by_cases hp : q u = true
    · simp only [updateFirstUser, if_pos hp]
      simp only [updateFirstUser, if_pos (show q (clearBlock u) = true from by rw [hq]; exact hp)]
      simp [clearBlock]
    · have hpf : q u = false := by
        revert hp; cases q u <;> simp
      simp only [updateFirstUser, hpf, Bool.false_eq_true, if_false]
      rw [ih]

theorem mem_upsert_key (l : List FeeStatusRec) (a : Nat) (p : String) (v : Bool)
    (t : Option Time) (n : String) (now : Time) :
    ∀ s ∈ upsertFeeStatus l a p v t n now, s ∈ l ∨ (s.author = a ∧ s.period = p) := by
  induction l with
  | nil =>
    intro s hs
    simp [upsertFeeStatus] at hs
    subst hs
    exact Or.inr ⟨rfl, rfl⟩
  | cons x rest ih =>
    intro s hs
    by_cases hk : x.author = a ∧ x.period = p
    · rw [upsertFeeStatus, if_pos hk] at hs
      rcases List.mem_cons.mp hs with h | h
      · subst h
        exact Or.inr hk
      · exact Or.inl (List.mem_cons_of_mem _ h)
    · rw [upsertFeeStatus, if_neg hk] at hs
      rcases List.mem_cons.mp hs with h | h
      · subst h
        exact Or.inl (List.mem_cons_self _ _)
      · rcases ih s h with h2 | h2
        · exact Or.inl (List.mem_cons_of_mem _ h2)
        · exact Or.inr h2

theorem mem_of_upsert (l : List FeeStatusRec) (a : Nat) (p : String) (v : Bool)
    (t : Option Time) (n : String) (now : Time) :
    ∀ s ∈ l, s ∈ upsertFeeStatus l a p v t n now ∨ (s.author = a ∧ s.period = p) := by
  induction l with
  | nil => intro s hs; cases hs
  | cons x rest ih =>
    intro s hs
    by_cases hk : x.author = a ∧ x.period = p
    · rcases List.mem_cons.mp hs with h | h
      · subst h
        exact Or.inr hk
      · rw [upsertFeeStatus, if_pos hk]
        exact Or.inl (List.mem_cons_of_mem _ h)
    · rw [upsertFeeStatus, if_neg hk]
      rcases List.mem_cons.mp hs with h | h
      · subst h
        exact Or.inl (List.mem_cons_self _ _)
      · rcases ih s h with h2 | h2
        · exact Or.inl (List.mem_cons_of_mem _ h2)
        · exact Or.inr h2

theorem forall2_updateFirst (l : List UserRec) (q : UserRec → Bool) (f : UserRec → UserRec) :
    List.Forall₂ (fun u u2 => u2 = u ∨ (q u = true ∧ u2 = f u)) l (updateFirstUser l q f) := by
  induction l with
  | nil => exact List.Forall₂.nil
  | cons u rest ih =>
    by_cases hp : q u = true
    · simp only [updateFirstUser, if_pos hp]
      exact List.Forall₂.cons (Or.inr ⟨hp, rfl⟩)
        (List.forall₂_same.mpr (fun x _ => Or.inl rfl))
    · have hpf : q u = false := by
        revert hp; cases q u <;> simp
      simp only [updateFirstUser, hpf, Bool.false_eq_true, if_false]
      exact List.Forall₂.cons (Or.inl rfl) ih

theorem clearBlock_mem_updateFirst (users : List UserRec) (a : Nat) (u : UserRec)
    (h : findAuthor users a = some u) :
    clearBlock u ∈
      updateFirstUser users (fun x => x.id == a && x.role == "author") clearBlock := by
  induction users with
  | nil => simp [findAuthor, List.find?] at h
  | cons x rest ih =>
    rw [findAuthor] at h
    simp only [List.find?] at h
    by_cases hp : (x.id == a && x.role == "author") = true
    · simp only [updateFirstUser, if_pos hp]
      rw [hp] at h
      injection h with h
      subst h
      exact List.mem_cons_self _ _
    · have hpf : (x.id == a && x.role == "author") = false := by
        revert hp; cases (x.id == a && x.role == "author") <;> simp
      simp only [updateFirstUser, hpf, Bool.false_eq_true, if_false]
      rw [hpf] at h
      exact List.mem_cons_of_mem _ (ih h)


theorem isNone_false_of_isSome {α : Type} (o : Option α) (h : o.isSome) :
    o.isNone = false := by
  cases o with
  | none => simp at h
  | some _ => rfl

theorem markPaidMonthlyUnblock_ok (store : Store) (a : Nat) (p note : String)
    (now : Time) (u : UserRec)
    (hper : (parsePeriod p).isSome) (hu : findAuthor store.users a = some u) :
    markPaidMonthlyUnblock store a p note now = .ok
      { store with
        feeStatuses := upsertFeeStatus store.feeStatuses u.id p true (some now) note now,
        users := updateFirstUser store.users
          (fun x => x.id == u.id && x.role == "author") clearBlock } := by
  unfold markPaidMonthlyUnblock
  rw [isNone_false_of_isSome _ hper]
  simp only [Bool.false_eq_true, if_false, hu]

theorem markPaidMonthlyNoUnblock_ok (store : Store) (a : Nat) (p note : String)
    (now : Time) (u : UserRec)
    (hper : (parsePeriod p).isSome) (hu : findAuthor store.users a = some u) :
    markPaidMonthlyNoUnblock store a p note now = .ok
      { store with
        feeStatuses := upsertFeeStatus store.feeStatuses u.id p true (some now) note now } := by
  unfold markPaidMonthlyNoUnblock
  rw [isNone_false_of_isSome _ hper]
  simp only [Bool.false_eq_true, if_false, hu]

theorem markUnpaidMonthly_ok (store : Store) (a : Nat) (p note : String)
    (now : Time) (u : UserRec)
    (hper : (parsePeriod p).isSome) (hu : findAuthor store.users a = some u) :
    markUnpaidMonthly store a p note now = .ok
      { store with
        feeStatuses := upsertFeeStatus store.feeStatuses u.id p false none note now } := by
  unfold markUnpaidMonthly
  rw [isNone_false_of_isSome _ hper]
  simp only [Bool.false_eq_true, if_false, hu]

theorem markPaidCycle_ok (store : Store) (a : Nat) (k note : String)
    (now : Time) (u : UserRec) (hu : findAuthor store.users a = some u) :
    markPaidCycle store a k note now = .ok
      { store with
        feeStatuses := upsertFeeStatus store.feeStatuses u.id k true (some now) note now } := by
  unfold markPaidCycle
  simp only [hu]

theorem markUnpaidCycle_ok (store : Store) (a : Nat) (k note : String)
    (now : Time) (u : UserRec) (hu : findAuthor store.users a = some u) :
    markUnpaidCycle store a k note now = .ok
      { store with
        feeStatuses := upsertFeeStatus store.feeStatuses u.id k false none note now } := by
  unfold markUnpaidCycle
  simp only [hu]

theorem clearBlock_clearBlock (u : UserRec) : clearBlock (clearBlock u) = clearBlock u := rfl


/-- C9 (confirmed): with the unique (author, period) index invariant (at
most one record per key), mark-paid, then mark-unpaid, then mark-paid —
in the calendar-month routes and in the cycle routes alike — all succeed,
leave exactly one PlatformFeeStatus record for the key, with isPaid=true
as the final state, and a repeated mark-paid returns the same store
(idempotent upsert, safe to call repeatedly). -/
theorem c9_mark_paid_unpaid_paid (store : Store) (a : Nat) (p k note1 note2 note3 : String)
    (now1 now2 now3 : Time)
    (hper : (parsePeriod p).isSome)
    (hauth : (findAuthor store.users a).isSome)
    (huniq : countKey store.feeStatuses a p ≤ 1)
    (huniqk : countKey store.feeStatuses a k ≤ 1) :
    (∃ s1 s2 s3,
      markPaidMonthlyUnblock store a p note1 now1 = .ok s1 ∧
      markUnpaidMonthly s1 a p note2 now2 = .ok s2 ∧
      markPaidMonthlyUnblock s2 a p note3 now3 = .ok s3 ∧
      countKey s3.feeStatuses a p = 1 ∧
      (∃ r, findKey s3.feeStatuses a p = some r ∧ r.isPaid = true) ∧
      markPaidMonthlyUnblock s3 a p note3 now3 = .ok s3) ∧
    (∃ t1 t2 t3,
      markPaidCycle store a k note1 now1 = .ok t1 ∧
      markUnpaidCycle t1 a k note2 now2 = .ok t2 ∧
      markPaidCycle t2 a k note3 now3 = .ok t3 ∧
      countKey t3.feeStatuses a k = 1 ∧
      (∃ r, findKey t3.feeStatuses a k = some r ∧ r.isPaid = true) ∧
      markPaidCycle t3 a k note3 now3 = .ok t3) := by
  obtain ⟨u, hu⟩ := Option.isSome_iff_exists.mp hauth
  obtain ⟨hid, hrole⟩ := findAuthor_key store.users a u hu
  constructor
  · -- calendar-month chain (auto-unblock variant)
    have h1 := markPaidMonthlyUnblock_ok store a p note1 now1 u hper hu
    set q : UserRec → Bool := fun x => x.id == u.id && x.role == "author" with hq
    set s1 : Store :=
      { store with
        feeStatuses := upsertFeeStatus store.feeStatuses u.id p true (some now1) note1 now1,
        users := updateFirstUser store.users q clearBlock } with hs1
    have hu1 : findAuthor s1.users a = some (clearBlock u) := by
      show findAuthor (updateFirstUser store.users q clearBlock) a = some (clearBlock u)
      rw [hq, hid]
      rw [findAuthor_updateFirst store.users a, hu, Option.map_some']
    have h2 := markUnpaidMonthly_ok s1 a p note2 now2 (clearBlock u) hper hu1
    set s2 : Store :=
      { s1 with
        feeStatuses := upsertFeeStatus s1.feeStatuses (clearBlock u).id p false none
          note2 now2 } with hs2
    have hu2 : findAuthor s2.users a = some (clearBlock u) := hu1
    have h3 := markPaidMonthlyUnblock_ok s2 a p note3 now3 (clearBlock u) hper hu2
    set s3 : Store :=
      { s2 with
        feeStatuses := upsertFeeStatus s2.feeStatuses (clearBlock u).id p true (some now3)
          note3 now3,
        users := updateFirstUser s2.users
          (fun x => x.id == (clearBlock u).id && x.role == "author") clearBlock } with hs3
    have hcb : (clearBlock u).id = u.id := rfl
    have hcount : countKey s3.feeStatuses a p = 1 := by
      rw [hs3, hs2]
      show countKey (upsertFeeStatus (upsertFeeStatus
        (upsertFeeStatus store.feeStatuses u.id p true (some now1) note1 now1)
        (clearBlock u).id p false none note2 now2) (clearBlock u).id p true (some now3)
        note3 now3) a p = 1
      rw [hcb, hid]
      rw [countKey_upsert, countKey_upsert, countKey_upsert]
      split_ifs <;> omega
    refine ⟨s1, s2, s3, h1, h2, h3, hcount, ?_, ?_⟩
    · have := findKey_upsert s2.feeStatuses a p true (some now3) note3 now3
      rw [hs3]
      show (∃ r, findKey (upsertFeeStatus s2.feeStatuses (clearBlock u).id p true (some now3)
        note3 now3) a p = some r ∧ r.isPaid = true)
      rw [hcb, hid, this]
      cases findKey s2.feeStatuses a p with
      | none => exact ⟨_, rfl, rfl⟩
      | some r0 => exact ⟨_, rfl, rfl⟩
    · have hu3 : findAuthor s3.users a = some (clearBlock u) := by
        rw [hs3]
        show findAuthor (updateFirstUser s2.users
          (fun x => x.id == (clearBlock u).id && x.role == "author") clearBlock) a =
          some (clearBlock u)
        rw [hcb, hid]
        rw [findAuthor_updateFirst s2.users a, hu2, Option.map_some', clearBlock_clearBlock]
      have h4 := markPaidMonthlyUnblock_ok s3 a p note3 now3 (clearBlock u) hper hu3
      rw [h4]
      congr 1
      have hfs : upsertFeeStatus s3.feeStatuses (clearBlock u).id p true (some now3)
          note3 now3 = s3.feeStatuses := by
        rw [hs3]
        show upsertFeeStatus (upsertFeeStatus s2.feeStatuses (clearBlock u).id p true
          (some now3) note3 now3) (clearBlock u).id p true (some now3) note3 now3 =
          upsertFeeStatus s2.feeStatuses (clearBlock u).id p true (some now3) note3 now3
        exact upsert_upsert _ _ _ _ _ _ _
      have hus : updateFirstUser s3.users
          (fun x => x.id == (clearBlock u).id && x.role == "author") clearBlock =
          s3.users := by
        rw [hs3]
        show updateFirstUser (updateFirstUser s2.users
          (fun x => x.id == (clearBlock u).id && x.role == "author") clearBlock)
          (fun x => x.id == (clearBlock u).id && x.role == "author") clearBlock =
          updateFirstUser s2.users
            (fun x => x.id == (clearBlock u).id && x.role == "author") clearBlock
        exact updateFirst_clearBlock_idem s2.users _ (fun x => rfl)
      rw [hfs, hus]
  · -- cycle chain (no parsePeriod validation, no unblock)
    have h1 := markPaidCycle_ok store a k note1 now1 u hu
    set t1 : Store :=
      { store with
        feeStatuses := upsertFeeStatus store.feeStatuses u.id k true (some now1) note1 now1 }
      with ht1
    have hu1 : findAuthor t1.users a = some u := hu
    have h2 := markUnpaidCycle_ok t1 a k note2 now2 u hu1
    set t2 : Store :=
      { t1 with
        feeStatuses := upsertFeeStatus t1.feeStatuses u.id k false none note2 now2 } with ht2
    have hu2 : findAuthor t2.users a = some u := hu
    have h3 := markPaidCycle_ok t2 a k note3 now3 u hu2
    set t3 : Store :=
      { t2 with
        feeStatuses := upsertFeeStatus t2.feeStatuses u.id k true (some now3) note3 now3 }
      with ht3
    have hcount : countKey t3.feeStatuses a k = 1 := by
      rw [ht3, ht2, ht1]
      show countKey (upsertFeeStatus (upsertFeeStatus
        (upsertFeeStatus store.feeStatuses u.id k true (some now1) note1 now1)
        u.id k false none note2 now2) u.id k true (some now3) note3 now3) a k = 1
      rw [hid, countKey_upsert, countKey_upsert, countKey_upsert]
      split_ifs <;> omega
    refine ⟨t1, t2, t3, h1, h2, h3, hcount, ?_, ?_⟩
    · have := findKey_upsert t2.feeStatuses a k true (some now3) note3 now3
      rw [ht3]
      show (∃ r, findKey (upsertFeeStatus t2.feeStatuses u.id k true (some now3)
        note3 now3) a k = some r ∧ r.isPaid = true)
      rw [hid, this]
      cases findKey t2.feeStatuses a k with
      | none => exact ⟨_, rfl, rfl⟩
      | some r0 => exact ⟨_, rfl, rfl⟩
    · have hu3 : findAuthor t3.users a = some u := hu
      have h4 := markPaidCycle_ok t3 a k note3 now3 u hu3
      rw [h4]
      congr 1
      have hfs : upsertFeeStatus t3.feeStatuses u.id k true (some now3) note3 now3 =
          t3.feeStatuses := by
        rw [ht3]
        show upsertFeeStatus (upsertFeeStatus t2.feeStatuses u.id k true (some now3)
          note3 now3) u.id k true (some now3) note3 now3 =
          upsertFeeStatus t2.feeStatuses u.id k true (some now3) note3 now3
        exact upsert_upsert _ _ _ _ _ _ _
      rw [hfs]



/-- C9 witness: a concrete author and period. -/
theorem c9_mark_paid_unpaid_paid_witness :
    ∃ s1 s2 s3,
      markPaidMonthlyUnblock c9Store 1 "2026-01" "n1" 5 = .ok s1 ∧
      markUnpaidMonthly s1 1 "2026-01" "n2" 6 = .ok s2 ∧
      markPaidMonthlyUnblock s2 1 "2026-01" "n3" 7 = .ok s3 ∧
      countKey s3.feeStatuses 1 "2026-01" = 1 ∧
      (∃ r, findKey s3.feeStatuses 1 "2026-01" = some r ∧ r.isPaid = true) ∧
      markPaidMonthlyUnblock s3 1 "2026-01" "n3" 7 = .ok s3 :=
  (c9_mark_paid_unpaid_paid c9Store 1 "2026-01" "2026-01-01_2026-02-01" "n1" "n2" "n3" 5 6 7
    (by decide) (by decide) (by decide) (by decide)).1

/-- C10 (confirmed): the admin.js mark-paid variant clears isBlocked,
blockedReason and blockedAt on the (first) matching author record and
touches no other persisted state beyond the (author, period)
PlatformFeeStatus record; the other variant leaves the users collection
untouched entirely, again changing nothing beyond that fee-status
record. -/
theorem c10_mark_paid_variants_frame (store : Store) (a : Nat) (p note : String) (now : Time)
    (s1 s2 : Store)
    (h1 : markPaidMonthlyUnblock store a p note now = .ok s1)
    (h2 : markPaidMonthlyNoUnblock store a p note now = .ok s2) :
    (s1.catalog = store.catalog ∧ s1.coupons = store.coupons ∧ s1.orders = store.orders) ∧
    List.Forall₂ (fun u u2 => u2 = u ∨
      (((u.id == a && u.role == "author") = true) ∧ u2 = clearBlock u)) store.users s1.users ∧
    (∃ u, findAuthor store.users a = some u ∧ clearBlock u ∈ s1.users ∧
      (clearBlock u).isBlocked = false ∧ (clearBlock u).blockedReason = none ∧
      (clearBlock u).blockedAt = none) ∧
    (∀ s ∈ s1.feeStatuses, s ∈ store.feeStatuses ∨ (s.author = a ∧ s.period = p)) ∧
    (∀ s ∈ store.feeStatuses, s ∈ s1.feeStatuses ∨ (s.author = a ∧ s.period = p)) ∧
    (s2.catalog = store.catalog ∧ s2.coupons = store.coupons ∧ s2.orders = store.orders ∧
      s2.users = store.users) ∧
    (∀ s ∈ s2.feeStatuses, s ∈ store.feeStatuses ∨ (s.author = a ∧ s.period = p)) ∧
    (∀ s ∈ store.feeStatuses, s ∈ s2.feeStatuses ∨ (s.author = a ∧ s.period = p)) := by
  unfold markPaidMonthlyUnblock at h1
  unfold markPaidMonthlyNoUnblock at h2
  by_cases hper : (parsePeriod p).isNone = true
  · rw [if_pos hper] at h1
    cases h1
  rw [if_neg hper] at h1 h2
  cases hu : findAuthor store.users a with
  | none =>
    rw [hu] at h1
    cases h1
  | some u =>
    rw [hu] at h1 h2
    injection h1 with h1
    injection h2 with h2
    obtain ⟨hid, hrole⟩ := findAuthor_key store.users a u hu
    subst h1
    subst h2
    refine ⟨⟨rfl, rfl, rfl⟩, ?_, ?_, ?_, ?_, ⟨rfl, rfl, rfl, rfl⟩, ?_, ?_⟩
    · rw [hid]
      exact forall2_updateFirst store.users _ clearBlock
    · refine ⟨u, rfl, ?_, rfl, rfl, rfl⟩
      rw [hid]
      exact clearBlock_mem_updateFirst store.users a u hu
    · rw [hid]
      exact mem_upsert_key store.feeStatuses a p true (some now) note now
    · rw [hid]
      exact mem_of_upsert store.feeStatuses a p true (some now) note now
    · rw [hid]
      exact mem_upsert_key store.feeStatuses a p true (some now) note now
    · rw [hid]
      exact mem_of_upsert store.feeStatuses a p true (some now) note now


/-- C10 witness: the blocked author is unblocked by one variant and left
blocked by the other. -/
theorem c10_mark_paid_variants_frame_witness :
    (∃ u, findAuthor c10Store.users 1 = some u ∧ clearBlock u ∈ c10PaidUnblock.users ∧
      (clearBlock u).isBlocked = false ∧ (clearBlock u).blockedReason = none ∧
      (clearBlock u).blockedAt = none) ∧
    c10PaidNoUnblock.users = c10Store.users := by
  have h := c10_mark_paid_variants_frame c10Store 1 "2026-01" "ok" 5
    c10PaidUnblock c10PaidNoUnblock (by rfl) (by rfl)
  exact ⟨h.2.2.1, h.2.2.2.2.2.1.2.2.2⟩

/-- Inversion of the verifying route: a built order implies every
verification check passed against the server-computed pricing. -/
theorem secure_result_ok (store : Store) (userId : Nat) (rawItems : List Nat)
    (paymentId : Option String) (discountCode : Option String)
    (paypalFetch : Option PayPalOrderInfo) (feePct : ℚ) (direct : Bool) (now : Time)
    (o : Order)
    (h : createOrderSecureResult store userId rawItems paymentId discountCode
      paypalFetch feePct direct now = .ok o) :
    ∃ pid pp pricing,
      paymentId = some pid ∧ paypalFetch = some pp ∧
      calculateCartPricing store.catalog store.coupons
        (rawItems.filter (fun i => i ≠ 0)) discountCode now = .ok pricing ∧
      0 < pricing.total ∧
      pp.status = "COMPLETED" ∧
      (∀ cur, pp.amount.bind (fun x => x.currency) = some cur → cur = "USD") ∧
      pp.amount.bind (fun x => x.value) = some (round2 pricing.total) ∧
      o = mkSecureOrder (fetchBooks store.catalog (rawItems.filter (fun i => i ≠ 0)))
        pricing userId pid feePct direct now := by
  simp only [createOrderSecureResult] at h
  repeat' split at h
  any_goals exact Except.noConfusion h
  rename_i hx1 pidv pid prv pricing hpr hlen hlen2 htot ppv pp hst hcur pav paid hpa hpe
  injection h with h
  refine ⟨pid, pp, pricing, rfl, rfl, hpr, not_le.mp htot, not_ne_iff.mp hst, ?_, ?_, h.symm⟩
  · intro cur hc
    rw [hc] at hcur
    by_contra hne
    exact hcur (by simpa using hne)
  · rw [hpa, not_ne_iff.mp hpe]


/-- C1 (amended): in the PayPal-verifying route, any error leaves the
store untouched (no Order persisted, no salesCount bumped), and an order
is persisted only when the PayPal status is COMPLETED, any reported
currency is USD, and the paid amount equals the Pricing Engine total at
two decimals; the persisted order carries exactly that total. (The plain
routes/orders.js endpoint persists without any verification; see the
counterexample.) -/
theorem c1_secure_no_persist_without_verification (store : Store) (userId : Nat) (rawItems : List Nat)
    (paymentId : Option String) (discountCode : Option String)
    (paypalFetch : Option PayPalOrderInfo) (feePct : ℚ) (direct : Bool) (now : Time) :
    (∀ e, (createOrderSecure store userId rawItems paymentId discountCode paypalFetch
        feePct direct now).1 = .error e →
      (createOrderSecure store userId rawItems paymentId discountCode paypalFetch
        feePct direct now).2 = store) ∧
    (∀ o, (createOrderSecure store userId rawItems paymentId discountCode paypalFetch
        feePct direct now).1 = .ok o →
      ∃ pid pp pricing,
        paymentId = some pid ∧ paypalFetch = some pp ∧
        calculateCartPricing store.catalog store.coupons
          (rawItems.filter (fun i => i ≠ 0)) discountCode now = .ok pricing ∧
        0 < pricing.total ∧
        pp.status = "COMPLETED" ∧
        (∀ cur, pp.amount.bind (fun x => x.currency) = some cur → cur = "USD") ∧
        pp.amount.bind (fun x => x.value) = some (round2 pricing.total) ∧
        o.totalAmount = pricing.total ∧
        (createOrderSecure store userId rawItems paymentId discountCode paypalFetch
          feePct direct now).2 =
          { store with orders := store.orders ++ [o],
                       catalog := bumpSales store.catalog
                         (rawItems.filter (fun i => i ≠ 0)) }) := by
  constructor
  · intro e he
    unfold createOrderSecure at he ⊢
    cases hr : createOrderSecureResult store userId rawItems paymentId discountCode
        paypalFetch feePct direct now with
    | error e2 => rfl
    | ok o2 =>
      rw [hr] at he
      simp at he
  · intro o ho
    unfold createOrderSecure at ho ⊢
    cases hr : createOrderSecureResult store userId rawItems paymentId discountCode
        paypalFetch feePct direct now with
    | error e2 =>
      rw [hr] at ho
      simp at ho
    | ok o2 =>
      rw [hr] at ho
      simp only [] at ho
      have ho2 : o2 = o := by
        injection ho
      subst ho2
      obtain ⟨pid, pp, pricing, h1, h2, h3, h4, h5, h6, h7, h8⟩ :=
        secure_result_ok store userId rawItems paymentId discountCode paypalFetch
          feePct direct now o2 hr
      refine ⟨pid, pp, pricing, h1, h2, h3, h4, h5, h6, h7, ?_, ?_⟩
      · rw [h8]
        rfl
      · rfl


/-- C1 witness: a failed request (here: empty cart) leaves the store
unchanged. -/
theorem c1_secure_no_persist_without_verification_witness :
    (createOrderSecure c1Store 1 [] (some "PAY") none none 10 true 0).2 = c1Store :=
  (c1_secure_no_persist_without_verification c1Store 1 [] (some "PAY") none none 10
    true 0).1 OrderError.emptyCart rfl


theorem round2_nonneg (q : ℚ) (h : 0 ≤ q) : 0 ≤ round2 q := by
  unfold round2
  apply div_nonneg _ (by norm_num)
  have : (0 : ℤ) ≤ round (q * 100) := by
    rw [round_eq]
    have : (0 : ℚ) ≤ q * 100 + 1/2 := by positivity
    exact_mod_cast Int.floor_nonneg.mpr this
  exact_mod_cast this

theorem abs_sub_round2 (q : ℚ) : |q - round2 q| ≤ 1/200 := by
  unfold round2
  have h := abs_sub_round (q * 100)
  have heq : q - (round (q * 100) : ℚ)/100 = (q * 100 - (round (q * 100) : ℚ))/100 := by
    ring
  rw [heq, abs_div, abs_of_nonneg (by norm_num : (0:ℚ) ≤ 100)]
  calc |q * 100 - (round (q * 100) : ℚ)| / 100 ≤ (1/2) / 100 :=
        (div_le_div_right (by norm_num)).mpr h
    _ = 1/200 := by norm_num

theorem sub_round2_lt (q : ℚ) : q - round2 q < 1/200 := by
  unfold round2
  rw [round_eq]
  have h : (q * 100 + 1/2) - 1 < ((⌊q * 100 + 1/2⌋ : ℤ) : ℚ) := by
    exact_mod_cast Int.sub_one_lt_floor (q * 100 + 1/2)
  nlinarith [h]

theorem round2_le_two_mul (q : ℚ) (h : 0 ≤ q) : round2 q ≤ 2 * q := by
  by_cases h2 : 1/200 ≤ q
  · have habs := abs_sub_round2 q
    have h3 := (abs_le.mp habs).1
    linarith
  · have hlt : q < 1/200 := not_le.mp h2
    have hz : round (q * 100) = 0 := by
      rw [round_eq, Int.floor_eq_zero_iff]
      constructor
      · linarith
      · show q * 100 + 1/2 < 1
        linarith
    unfold round2
    rw [hz]
    push_cast
    linarith

theorem round2_mono {q r : ℚ} (h : q ≤ r) : round2 q ≤ round2 r := by
  unfold round2
  have h1 : round (q * 100) ≤ round (r * 100) := by
    rw [round_eq, round_eq]
    exact Int.floor_le_floor (by linarith)
  exact (div_le_div_right (by norm_num)).mpr (by exact_mod_cast h1)

theorem lt_of_round2_eq_zero (q : ℚ) (h0 : 0 ≤ q) (h : round2 q = 0) : q < 1/200 := by
  by_contra hc
  push_neg at hc
  have h1 : (1 : ℤ) ≤ round (q * 100) := by
    rw [round_eq]
    apply Int.le_floor.mpr
    push_cast
    linarith
  unfold round2 at h
  rw [div_eq_zero_iff] at h
  rcases h with h | h
  · have : round (q * 100) = 0 := by exact_mod_cast h
    omega
  · norm_num at h

theorem cent_sum (l : List ℚ) (h : ∀ x ∈ l, ∃ k : ℤ, x = (k:ℚ)/100) :
    ∃ K : ℤ, l.sum = (K:ℚ)/100 := by
  induction l with
  | nil => exact ⟨0, by simp⟩
  | cons x xs ih =>
    obtain ⟨k, hk⟩ := h x (List.mem_cons_self _ _)
    obtain ⟨K, hK⟩ := ih (fun y hy => h y (List.mem_cons_of_mem _ hy))
    refine ⟨k + K, ?_⟩
    rw [List.sum_cons, hk, hK]
    push_cast
    ring


theorem snd_sum_addEarning (m : List (Nat × ℚ)) (a : Nat) (x : ℚ) :
    ((addEarning m a x).map (fun p => p.2)).sum = ((m.map (fun p => p.2)).sum) + x := by
  induction m with
  | nil => simp [addEarning]
  | cons q rest ih =>
    by_cases hk : q.1 = a
    · cases q with
      | mk b v =>
        simp only [addEarning] at *
        rw [if_pos hk]
        simp [List.sum_cons]
        ring
    · cases q with
      | mk b v =>
        simp only [addEarning] at *
        rw [if_neg hk]
        simp [List.sum_cons, ih]
        ring

theorem snd_sum_fold_addEarning (l : List Book) (e : Book → ℚ) :
    ∀ m : List (Nat × ℚ),
      (((l.foldl (fun m b => addEarning m b.author (e b)) m)).map (fun p => p.2)).sum =
        ((m.map (fun p => p.2)).sum) + (l.map e).sum := by
  induction l with
  | nil => intro m; simp
  | cons b rest ih =>
    intro m
    simp only [List.foldl_cons, List.map_cons, List.sum_cons]
    rw [ih (addEarning m b.author (e b)), snd_sum_addEarning]
    ring


theorem pricing_ok_core (catalog : List Book) (coupons : List Coupon)
    (bookIds : List Nat) (code : Option String) (now : Time) (pr : PricingResult)
    (hbp : ∀ b ∈ catalog, 0 ≤ b.price)
    (hcp : ∀ c ∈ coupons, 0 ≤ c.discountPercentage)
    (h : calculateCartPricing catalog coupons bookIds code now = .ok pr) :
    pr.originalTotal = round2 (bookSum (fetchBooks catalog bookIds)) ∧
    (∃ k : ℤ, pr.total = (k : ℚ)/100) ∧
    pr.total ≤ 2 * bookSum (fetchBooks catalog bookIds) := by
  have hraw0 : 0 ≤ bookSum (fetchBooks catalog bookIds) := by
    apply List.sum_nonneg
    intro x hx
    obtain ⟨b, hb, rfl⟩ := List.mem_map.mp hx
    exact hbp b (List.mem_filter.mp hb).1
  by_cases hemp : bookIds.isEmpty = true
  · unfold calculateCartPricing at h
    rw [if_pos hemp] at h
    injection h with h
    subst h
    have hbe : bookIds = [] := by
      cases bookIds with
      | nil => rfl
      | cons a l => simp at hemp
    subst hbe
    have hfe : fetchBooks catalog [] = [] := by
      simp [fetchBooks]
    rw [hfe]
    refine ⟨?_, ⟨0, by simp [emptyPricing]⟩, ?_⟩
    · simp [emptyPricing, bookSum, round2]
    · simp [emptyPricing, bookSum]
  have hempf : bookIds.isEmpty = false := by
    revert hemp; cases bookIds.isEmpty <;> simp
  have hne : bookIds ≠ [] := by
    cases bookIds with
    | nil => simp at hempf
    | cons a l => simp
  cases code with
  | none =>
    have heval : calculateCartPricing catalog coupons bookIds none now =
        .ok { books := fetchBooks catalog bookIds,
              originalTotal := round2 (bookSum (fetchBooks catalog bookIds)),
              discountAmount := 0,
              total := round2 (bookSum (fetchBooks catalog bookIds)),
              discountCode := none, discountPercentage := none,
              discountedItems := (fetchBooks catalog bookIds).map (fun b =>
                { bookId := b.id, originalPrice := round2 b.price,
                  discountedPrice := round2 b.price, discountAmount := 0,
                  isDiscounted := false }) } := by
      unfold calculateCartPricing
      rw [hempf]
      rfl
    rw [heval] at h
    injection h with h
    subst h
    exact ⟨rfl, ⟨round (bookSum (fetchBooks catalog bookIds) * 100), rfl⟩,
      round2_le_two_mul _ hraw0⟩
  | some raw =>
    cases hfind : coupons.find? (fun c => c.code == normalizeCode raw) with
    | none =>
      have heval : calculateCartPricing catalog coupons bookIds (some raw) now =
          .error .invalidCode := by
        unfold calculateCartPricing
        rw [hempf]
        simp only [Bool.false_eq_true, if_false, hfind]
      rw [heval] at h
      exact Except.noConfusion h
    | some c =>
      have hc0 : 0 ≤ c.discountPercentage := hcp c (List.mem_of_find?_eq_some hfind)
      by_cases hact : c.isActive = true
      case neg =>
        have hactf : c.isActive = false := by
          revert hact; cases c.isActive <;> simp
        have heval : calculateCartPricing catalog coupons bookIds (some raw) now =
            .error .notActive := by
          unfold calculateCartPricing
          rw [hempf]
          simp only [Bool.false_eq_true, if_false, hfind, hactf, Bool.not_false, if_true]
        rw [heval] at h
        exact Except.noConfusion h
      case pos =>
      by_cases hbw : beforeWindow c now = true
      case pos =>
        have heval : calculateCartPricing catalog coupons bookIds (some raw) now =
            .error .notYetValid := by
          unfold calculateCartPricing
          rw [hempf]
          simp only [Bool.false_eq_true, if_false, hfind, hact, hbw, Bool.not_true, if_true]
        rw [heval] at h
        exact Except.noConfusion h
      case neg =>
      have hbwf : beforeWindow c now = false := by
        revert hbw; cases beforeWindow c now <;> simp
      by_cases haw : afterWindow c now = true
      case pos =>
        have heval : calculateCartPricing catalog coupons bookIds (some raw) now =
            .error .expired := by
          unfold calculateCartPricing
          rw [hempf]
          simp only [Bool.false_eq_true, if_false, hfind, hact, hbwf, haw, Bool.not_true,
            if_true]
        rw [heval] at h
        exact Except.noConfusion h
      case neg =>
      have hawf : afterWindow c now = false := by
        revert haw; cases afterWindow c now <;> simp
      by_cases hsc : (c.scope == CouponScope.author &&
          !((fetchBooks catalog bookIds).any (fun b => c.author == some b.author))) = true
      case pos =>
        rw [pricing_scope_mismatch catalog coupons bookIds raw c now hne hfind hact hbwf
          hawf hsc] at h
        exact Except.noConfusion h
      case neg =>
      have hscf : (c.scope == CouponScope.author &&
          !((fetchBooks catalog bookIds).any (fun b => c.author == some b.author))) = false := by
        revert hsc
        cases (c.scope == CouponScope.author &&
          !((fetchBooks catalog bookIds).any (fun b => c.author == some b.author))) <;> simp
      rw [pricing_coupon_branch catalog coupons bookIds raw c now hne hfind hact hbwf
        hawf hscf] at h
      injection h with h
      subst h
      refine ⟨rfl, ⟨round (((((fetchBooks catalog bookIds).map (discountedItemFor c)).map
        (fun i => i.discountedPrice)).sum) * 100), rfl⟩, ?_⟩
      have hpoint : ∀ b ∈ fetchBooks catalog bookIds,
          (discountedItemFor c b).discountedPrice ≤ 2 * b.price := by
        intro b hb
        have hp : 0 ≤ b.price := hbp b (List.mem_filter.mp hb).1
        have hamt : (0:ℚ) ≤ (if couponEligible c b = true then
            b.price * (c.discountPercentage / 100) else 0) := by
          split
          · exact mul_nonneg hp (div_nonneg hc0 (by norm_num))
          · exact le_refl 0
        have hle : max 0 (b.price - (if couponEligible c b = true then
            b.price * (c.discountPercentage / 100) else 0)) ≤ b.price :=
          max_le hp (by linarith)
        calc (discountedItemFor c b).discountedPrice
            = round2 (max 0 (b.price - (if couponEligible c b = true then
                b.price * (c.discountPercentage / 100) else 0))) := rfl
          _ ≤ round2 b.price := round2_mono hle
          _ ≤ 2 * b.price := round2_le_two_mul _ hp
      have hcent : ∀ x ∈ (((fetchBooks catalog bookIds).map (discountedItemFor c)).map
          (fun i => i.discountedPrice)), ∃ k : ℤ, x = (k:ℚ)/100 := by
        intro x hx
        obtain ⟨it, hit, rfl⟩ := List.mem_map.mp hx
        obtain ⟨b, hb, rfl⟩ := List.mem_map.mp hit
        exact ⟨round ((max 0 (b.price - (if couponEligible c b = true then
          b.price * (c.discountPercentage / 100) else 0))) * 100), rfl⟩
      obtain ⟨K, hK⟩ := cent_sum _ hcent
      have hfix : round2 ((((fetchBooks catalog bookIds).map (discountedItemFor c)).map
          (fun i => i.discountedPrice)).sum) =
          (((fetchBooks catalog bookIds).map (discountedItemFor c)).map
            (fun i => i.discountedPrice)).sum := by
        apply round2_eq_self_of_cent
        exact ⟨K, by rw [hK]; field_simp⟩
      show round2 ((((fetchBooks catalog bookIds).map (discountedItemFor c)).map
          (fun i => i.discountedPrice)).sum) ≤ 2 * bookSum (fetchBooks catalog bookIds)
      rw [hfix]
      have hsum : ((((fetchBooks catalog bookIds).map (discountedItemFor c)).map
          (fun i => i.discountedPrice)).sum) ≤
          (((fetchBooks catalog bookIds).map (fun b => 2 * b.price)).sum) := by
        rw [List.map_map]
        exact List.sum_le_sum (fun b hb => hpoint b hb)
      calc ((((fetchBooks catalog bookIds).map (discountedItemFor c)).map
            (fun i => i.discountedPrice)).sum)
          ≤ (((fetchBooks catalog bookIds).map (fun b => 2 * b.price)).sum) := hsum
        _ = 2 * bookSum (fetchBooks catalog bookIds) := by
            rw [bookSum, List.sum_map_mul_left]

theorem snd_sum_buildEarningsMap (books : List Book) (oT tA f : ℚ) :
    ((buildEarningsMap books oT tA f).map (fun p => p.2)).sum =
      (books.map (fun b =>
        tA * (if 0 < oT then b.price / oT else 0) * (1 - f / 100))).sum := by
  have h := snd_sum_fold_addEarning books
    (fun b => tA * (if 0 < oT then b.price / oT else 0) * (1 - f / 100)) []
  simp only [List.map_nil, List.sum_nil, zero_add] at h
  exact h

theorem snd_sum_buildEarningsMapPlainFin (books : List Book) (oT tA f : ℚ) :
    ((buildEarningsMapPlainFin books oT tA f).map (fun p => p.2)).sum =
      (books.map (fun b => tA * (b.price / oT) * (1 - f / 100))).sum := by
  have h := snd_sum_fold_addEarning books
    (fun b => tA * (b.price / oT) * (1 - f / 100)) []
  simp only [List.map_nil, List.sum_nil, zero_add] at h
  exact h

theorem addEarningJs_map_num (m : List (Nat × ℚ)) (a : Nat) (x : ℚ) :
    addEarningJs (m.map (fun p => (p.1, JsNum.num p.2))) a (JsNum.num x) =
      (addEarning m a x).map (fun p => (p.1, JsNum.num p.2)) := by
  induction m with
  | nil => rfl
  | cons q rest ih =>
    cases q with
    | mk b v =>
      simp only [List.map_cons, addEarningJs, addEarning]
      by_cases hb : b = a
      · rw [if_pos hb, if_pos hb]
        rfl
      · rw [if_neg hb, if_neg hb, List.map_cons, ih]

theorem buildEarningsMapPlainJs_eq_fin (books : List Book) (oT tA f : ℚ) (h : oT ≠ 0) :
    buildEarningsMapPlainJs books oT tA f =
      (buildEarningsMapPlainFin books oT tA f).map (fun p => (p.1, JsNum.num p.2)) := by
  show books.foldl (fun m b => addEarningJs m b.author
      (jsMulC (jsCMul tA (jsDiv b.price oT)) (1 - f / 100))) [] =
    (books.foldl (fun m b => addEarning m b.author
      (tA * (b.price / oT) * (1 - f / 100))) []).map (fun p => (p.1, JsNum.num p.2))
  have hgen : ∀ mQ : List (Nat × ℚ),
      books.foldl (fun m b => addEarningJs m b.author
        (jsMulC (jsCMul tA (jsDiv b.price oT)) (1 - f / 100)))
        (mQ.map (fun p => (p.1, JsNum.num p.2))) =
      (books.foldl (fun m b => addEarning m b.author
        (tA * (b.price / oT) * (1 - f / 100))) mQ).map
        (fun p => (p.1, JsNum.num p.2)) := by
    induction books with
    | nil => intro mQ; rfl
    | cons b rest ih =>
      intro mQ
      simp only [List.foldl_cons]
      have hamt : jsMulC (jsCMul tA (jsDiv b.price oT)) (1 - f / 100) =
          JsNum.num (tA * (b.price / oT) * (1 - f / 100)) := by
        rw [jsDiv, if_neg h]
        rfl
      rw [hamt, addEarningJs_map_num, ih]
  have h0 := hgen []
  simpa using h0

theorem buildEarningsMapPlain_eq_fin (books : List Book) (oT tA f : ℚ) (h : oT ≠ 0) :
    buildEarningsMapPlain books oT tA f = buildEarningsMapPlainFin books oT tA f := by
  unfold buildEarningsMapPlain
  rw [buildEarningsMapPlainJs_eq_fin books oT tA f h, List.map_map]
  exact List.map_id _

theorem any_isNan_addEarningJs_nan (m : List (Nat × JsNum)) (a : Nat) :
    (addEarningJs m a .nan).any (fun p => p.2.isNan) = true := by
  induction m with
  | nil => rfl
  | cons q rest ih =>
    cases q with
    | mk b v =>
      simp only [addEarningJs]
      by_cases hb : b = a
      · rw [if_pos hb]
        cases v <;> simp [jsAdd, JsNum.isNan]
      · rw [if_neg hb]
        simp [ih]

theorem any_isNan_addEarningJs_mono (m : List (Nat × JsNum)) (a : Nat) (x : JsNum)
    (h : m.any (fun p => p.2.isNan) = true) :
    (addEarningJs m a x).any (fun p => p.2.isNan) = true := by
  induction m with
  | nil => simp at h
  | cons q rest ih =>
    cases q with
    | mk b v =>
      simp only [addEarningJs]
      simp only [List.any_cons, Bool.or_eq_true] at h
      by_cases hb : b = a
      · rw [if_pos hb]
        rcases h with h | h
        · have hv : v = .nan := by
            cases v <;> simp [JsNum.isNan] at h ⊢
          subst hv
          simp [jsAdd, JsNum.isNan]
        · simp [h]
      · rw [if_neg hb]
        rcases h with h | h
        · simp [h]
        · simp [ih h]

theorem any_isNan_fold (books : List Book) (oT tA f : ℚ) :
    ∀ m : List (Nat × JsNum),
      (m.any (fun p => p.2.isNan) = true ∨
        ∃ b ∈ books,
          (jsMulC (jsCMul tA (jsDiv b.price oT)) (1 - f / 100)).isNan = true) →
      ((books.foldl (fun m b => addEarningJs m b.author
          (jsMulC (jsCMul tA (jsDiv b.price oT)) (1 - f / 100))) m).any
        (fun p => p.2.isNan)) = true := by
  induction books with
  | nil =>
    intro m h
    rcases h with h | ⟨b, hb, _⟩
    · exact h
    · simp at hb
  | cons b rest ih =>
    intro m h
    simp only [List.foldl_cons]
    apply ih
    rcases h with h | ⟨b2, hb2, hnan⟩
    · exact Or.inl (any_isNan_addEarningJs_mono _ _ _ h)
    · rcases List.mem_cons.mp hb2 with heq | hb2
      · subst heq
        left
        have hamt : jsMulC (jsCMul tA (jsDiv b2.price oT)) (1 - f / 100) = .nan := by
          cases hcase : jsMulC (jsCMul tA (jsDiv b2.price oT)) (1 - f / 100) <;>
            rw [hcase] at hnan <;> simp [JsNum.isNan] at hnan ⊢
        rw [hamt]
        exact any_isNan_addEarningJs_nan _ _
      · exact Or.inr ⟨b2, hb2, hnan⟩

theorem any_isNan_buildEarningsMapPlainJs (books : List Book) (oT tA f : ℚ)
    (b : Book) (hb : b ∈ books)
    (hnan : (jsMulC (jsCMul tA (jsDiv b.price oT)) (1 - f / 100)).isNan = true) :
    (buildEarningsMapPlainJs books oT tA f).any (fun p => p.2.isNan) = true :=
  any_isNan_fold books oT tA f [] (Or.inr ⟨b, hb, hnan⟩)

theorem plainChosen_subset (catalog : List Book) (bookIds : List Nat) :
    ∀ b ∈ plainChosen catalog bookIds, b ∈ fetchBooks catalog bookIds := by
  intro b hb
  obtain ⟨i, _, hfind⟩ := List.mem_filterMap.mp hb
  exact List.mem_of_find?_eq_some hfind

theorem plainChosen_ne_nil (catalog : List Book) (bookIds : List Nat)
    (hlen : (fetchBooks catalog bookIds).length = bookIds.length)
    (hne : bookIds ≠ []) :
    plainChosen catalog bookIds ≠ [] := by
  have hfne : fetchBooks catalog bookIds ≠ [] := by
    intro hnil
    rw [hnil] at hlen
    exact hne (List.eq_nil_of_length_eq_zero hlen.symm)
  obtain ⟨bh, hbh⟩ := List.exists_mem_of_ne_nil _ hfne
  have hid : bh.id ∈ bookIds := by
    have hmem := (List.mem_filter.mp hbh).2
    simp only [Bool.and_eq_true] at hmem
    simpa using hmem.1
  intro hnilchosen
  have hall := List.filterMap_eq_nil.mp hnilchosen bh.id hid
  have hfind : (fetchBooks catalog bookIds).find? (fun b => b.id == bh.id) ≠ none := by
    intro hcontra
    have := List.find?_eq_none.mp hcontra bh hbh
    simp at this
  exact hfind hall

theorem map_share_sum (books : List Book) (oT tA f : ℚ) (h : oT ≠ 0) :
    (books.map (fun b => tA * (b.price / oT) * (1 - f / 100))).sum =
      tA * (1 - f / 100) * (bookSum books / oT) := by
  have he : (books.map (fun b => tA * (b.price / oT) * (1 - f / 100))) =
      (books.map (fun b => (tA * (1 - f / 100) / oT) * b.price)) := by
    apply List.map_congr_left
    intro b _
    field_simp
    ring
  rw [he, List.sum_map_mul_left]
  show tA * (1 - f / 100) / oT * (books.map (fun b => b.price)).sum = _
  rw [bookSum]
  field_simp

theorem mkSecureOrder_fields (books : List Book) (pricing : PricingResult)
    (userId : Nat) (pid : String) (f : ℚ) (direct : Bool) (now : Time) :
    (mkSecureOrder books pricing userId pid f direct now).platformEarnings =
      pricing.total * (f / 100) ∧
    (mkSecureOrder books pricing userId pid f direct now).authorEarnings =
      pricing.total - pricing.total * (f / 100) ∧
    (mkSecureOrder books pricing userId pid f direct now).totalAmount = pricing.total :=
  ⟨rfl, rfl, rfl⟩

theorem mkPlainOrder_fields (chosen : List Book) (userId : Nat) (pid : String)
    (dc : Option String) (dp : Option ℚ) (cda : Option ℚ) (f : ℚ) (now : Time) :
    (mkPlainOrder chosen userId pid dc dp cda f now).platformEarnings =
      (bookSum chosen - cda.getD 0) * (f / 100) ∧
    (mkPlainOrder chosen userId pid dc dp cda f now).authorEarnings =
      (bookSum chosen - cda.getD 0) - (bookSum chosen - cda.getD 0) * (f / 100) ∧
    (mkPlainOrder chosen userId pid dc dp cda f now).totalAmount =
      bookSum chosen - cda.getD 0 :=
  ⟨rfl, rfl, rfl⟩

theorem breakdown_sum_mkSecureOrder (books : List Book) (pricing : PricingResult)
    (userId : Nat) (pid : String) (f : ℚ) (direct : Bool) (now : Time) :
    (((mkSecureOrder books pricing userId pid f direct now).authorEarningsBreakdown).map
        (fun e => e.amount)).sum =
      (books.map (fun b => pricing.total *
        (if 0 < pricing.originalTotal then b.price / pricing.originalTotal else 0) *
        (1 - f / 100))).sum := by
  simp only [mkSecureOrder, List.map_map]
  exact snd_sum_buildEarningsMap books pricing.originalTotal pricing.total f

theorem breakdown_sum_mkPlainOrder (chosen : List Book) (userId : Nat) (pid : String)
    (dc : Option String) (dp : Option ℚ) (cda : Option ℚ) (f : ℚ) (now : Time)
    (h : bookSum chosen ≠ 0) :
    (((mkPlainOrder chosen userId pid dc dp cda f now).authorEarningsBreakdown).map
        (fun e => e.amount)).sum =
      (chosen.map (fun b => (bookSum chosen - cda.getD 0) *
        (b.price / bookSum chosen) * (1 - f / 100))).sum := by
  simp only [mkPlainOrder, List.map_map]
  rw [buildEarningsMapPlain_eq_fin _ _ _ _ h]
  exact snd_sum_buildEarningsMapPlainFin chosen (bookSum chosen)
    (bookSum chosen - cda.getD 0) f

theorem secure_gap_bound (raw tA f : ℚ) (k : ℤ)
    (hraw0 : 0 ≤ raw) (htk : tA = (k : ℚ) / 100) (ht2 : tA ≤ 2 * raw) (htpos : 0 < tA)
    (hf0 : 0 ≤ f) (hf1 : f ≤ 100) :
    0 < round2 raw ∧
    |tA * (1 - f / 100) * (raw / round2 raw) - (tA - tA * (f / 100))| ≤ 1 / 100 := by
  have hoT0 : 0 ≤ round2 raw := round2_nonneg raw hraw0
  have hoTpos : 0 < round2 raw := by
    rcases lt_or_eq_of_le hoT0 with h | h
    · exact h
    · exfalso
      have hz : round2 raw = 0 := h.symm
      have hlt : raw < 1 / 200 := lt_of_round2_eq_zero raw hraw0 hz
      have h1 : tA < 1 / 100 := by linarith
      have hkq : (0 : ℚ) < (k : ℚ) := by
        rw [htk] at htpos
        linarith
      have hk1 : (1 : ℤ) ≤ k := by
        have : (0 : ℤ) < k := by exact_mod_cast hkq
        omega
      have h2 : (1 : ℚ) / 100 ≤ tA := by
        rw [htk]
        have : (1 : ℚ) ≤ (k : ℚ) := by exact_mod_cast hk1
        linarith
      linarith
  refine ⟨hoTpos, ?_⟩
  have hm : round2 raw = ((round (raw * 100) : ℤ) : ℚ) / 100 := rfl
  have hsub : raw - round2 raw < 1 / 200 := sub_round2_lt raw
  have htle : tA ≤ 2 * round2 raw := by
    have h2raw : tA < 2 * round2 raw + 1 / 100 := by linarith
    rw [htk, hm] at h2raw
    have hcast : (k : ℚ) < 2 * ((round (raw * 100) : ℤ) : ℚ) + 1 := by linarith
    have hkint : k < 2 * round (raw * 100) + 1 := by exact_mod_cast hcast
    have hkle : k ≤ 2 * round (raw * 100) := by omega
    rw [htk, hm]
    have : (k : ℚ) ≤ 2 * ((round (raw * 100) : ℤ) : ℚ) := by exact_mod_cast hkle
    linarith
  have hc0 : (0 : ℚ) ≤ 1 - f / 100 := by linarith
  have hc1 : (1 : ℚ) - f / 100 ≤ 1 := by linarith
  have hne : round2 raw ≠ 0 := ne_of_gt hoTpos
  have hfactor : tA * (1 - f / 100) * (raw / round2 raw) - (tA - tA * (f / 100)) =
      (tA * (1 - f / 100) / round2 raw) * (raw - round2 raw) := by
    field_simp
    ring
  rw [hfactor, abs_mul]
  have hnn : 0 ≤ tA * (1 - f / 100) / round2 raw :=
    div_nonneg (mul_nonneg htpos.le hc0) hoTpos.le
  rw [abs_of_nonneg hnn]
  have hfac : tA * (1 - f / 100) / round2 raw ≤ 2 := by
    rw [div_le_iff hoTpos]
    have h1 : tA * (1 - f / 100) ≤ tA := by nlinarith
    linarith
  have habs : |raw - round2 raw| ≤ 1 / 200 := abs_sub_round2 raw
  calc tA * (1 - f / 100) / round2 raw * |raw - round2 raw| ≤ 2 * (1 / 200) :=
        mul_le_mul hfac habs (abs_nonneg _) (by norm_num)
    _ = 1 / 100 := by norm_num

/-- C7: for every Order produced by the order-creation endpoints,
platformEarnings + authorEarnings equals totalAmount within 0.01, and the
breakdown amounts sum to within 0.01 of authorEarnings. For the
PayPal-verifying route the first invariant is exact and the second is the
per-item-rounding bound; for routes/orders.js both hold for every order
that is actually persisted, because with a zero original total every
breakdown amount is the JS value NaN (0/0) and Mongoose's Number cast
rejects the save, so no such Order is ever produced. Hypotheses reflect
the schemas: Book prices have `min: 0`, coupon percentages `min: 1`, and
the platform fee percentage is a constant between 0 and 100. -/
theorem c7_earnings_invariants
    (store : Store) (userId : Nat) (rawItems : List Nat) (paymentId : Option String)
    (discountCode : Option String) (paypalFetch : Option PayPalOrderInfo)
    (feePct : ℚ) (direct : Bool) (now : Time) (o : Order)
    (hbp : ∀ b ∈ store.catalog, 0 ≤ b.price)
    (hcp : ∀ c ∈ store.coupons, 0 ≤ c.discountPercentage)
    (hf0 : 0 ≤ feePct) (hf1 : feePct ≤ 100)
    (h : createOrderSecureResult store userId rawItems paymentId discountCode
        paypalFetch feePct direct now = Except.ok o) :
    (|o.platformEarnings + o.authorEarnings - o.totalAmount| ≤ 1 / 100 ∧
     |((o.authorEarningsBreakdown.map (fun e => e.amount)).sum) - o.authorEarnings| ≤
       1 / 100) ∧
    (∀ (bookIds : List Nat) (pid : String) (dc : Option String) (dp cda : Option ℚ)
        (o2 : Order),
      createOrderPlainResult store userId bookIds pid dc dp cda feePct now =
        Except.ok o2 →
      |o2.platformEarnings + o2.authorEarnings - o2.totalAmount| ≤ 1 / 100 ∧
      |((o2.authorEarningsBreakdown.map (fun e => e.amount)).sum) -
        o2.authorEarnings| ≤ 1 / 100) := by
  constructor
  · obtain ⟨pid, pp, pricing, h1, h2, h3, h4, h5, h6, h7, h8⟩ :=
      secure_result_ok store userId rawItems paymentId discountCode paypalFetch
        feePct direct now o h
    obtain ⟨hoT, ⟨k, hk⟩, ht2⟩ :=
      pricing_ok_core store.catalog store.coupons (rawItems.filter (fun i => i ≠ 0))
        discountCode now pricing hbp hcp h3
    subst h8
    obtain ⟨hpe, hae, hta⟩ := mkSecureOrder_fields
      (fetchBooks store.catalog (rawItems.filter (fun i => i ≠ 0))) pricing userId pid
      feePct direct now
    have hraw0 : 0 ≤ bookSum (fetchBooks store.catalog (rawItems.filter (fun i => i ≠ 0))) := by
      apply List.sum_nonneg
      intro x hx
      obtain ⟨b, hb, rfl⟩ := List.mem_map.mp hx
      exact hbp b (List.mem_filter.mp hb).1
    obtain ⟨hoTpos, hgap⟩ := secure_gap_bound
      (bookSum (fetchBooks store.catalog (rawItems.filter (fun i => i ≠ 0))))
      pricing.total feePct k hraw0 hk ht2 h4 hf0 hf1
    constructor
    · rw [hpe, hae, hta]
      have hz : pricing.total * (feePct / 100) +
          (pricing.total - pricing.total * (feePct / 100)) - pricing.total = 0 := by ring
      rw [hz]
      norm_num
    · have hpos2 : 0 < pricing.originalTotal := by rw [hoT]; exact hoTpos
      rw [hae, breakdown_sum_mkSecureOrder]
      simp only [if_pos hpos2]
      rw [map_share_sum _ _ _ _ (ne_of_gt hpos2), hoT]
      exact hgap
  · intro bookIds pid dc dp cda o2 hok
    simp only [createOrderPlainResult] at hok
    repeat' split at hok
    any_goals exact Except.noConfusion hok
    injection hok with hok
    subst hok
    rename_i hempty hlen hnan
    have hne : bookIds ≠ [] := by
      intro hnil
      exact hempty (by simp [hnil])
    have hlen2 : (fetchBooks store.catalog bookIds).length = bookIds.length :=
      not_ne_iff.mp hlen
    have hcne : plainChosen store.catalog bookIds ≠ [] :=
      plainChosen_ne_nil _ _ hlen2 hne
    have hsubp : ∀ b ∈ plainChosen store.catalog bookIds, 0 ≤ b.price := fun b hb =>
      hbp b (List.mem_filter.mp (plainChosen_subset _ _ b hb)).1
    have hsum0 : 0 ≤ bookSum (plainChosen store.catalog bookIds) := by
      apply List.sum_nonneg
      intro x hx
      obtain ⟨b, hb, rfl⟩ := List.mem_map.mp hx
      exact hsubp b hb
    have hOTne : bookSum (plainChosen store.catalog bookIds) ≠ 0 := by
      intro h0
      obtain ⟨b0, hb0⟩ := List.exists_mem_of_ne_nil _ hcne
      have hble : b0.price ≤ bookSum (plainChosen store.catalog bookIds) := by
        apply List.single_le_sum
        · intro q hq
          obtain ⟨b, hb, rfl⟩ := List.mem_map.mp hq
          exact hsubp b hb
        · exact List.mem_map.mpr ⟨b0, hb0, rfl⟩
      have hp0 : b0.price = 0 :=
        le_antisymm (by rw [h0] at hble; exact hble) (hsubp b0 hb0)
      have hnanAmt : (jsMulC (jsCMul
          (bookSum (plainChosen store.catalog bookIds) - cda.getD 0)
          (jsDiv b0.price (bookSum (plainChosen store.catalog bookIds))))
          (1 - feePct / 100)).isNan = true := by
        rw [jsDiv, if_pos h0, if_pos hp0]
        rfl
      exact hnan (any_isNan_buildEarningsMapPlainJs _ _ _ _ b0 hb0 hnanAmt)
    obtain ⟨hpe, hae, hta⟩ := mkPlainOrder_fields (plainChosen store.catalog bookIds)
      userId pid dc dp cda feePct now
    constructor
    · rw [hpe, hae, hta]
      have hz : (bookSum (plainChosen store.catalog bookIds) - cda.getD 0) * (feePct / 100) +
          ((bookSum (plainChosen store.catalog bookIds) - cda.getD 0) -
            (bookSum (plainChosen store.catalog bookIds) - cda.getD 0) * (feePct / 100)) -
          (bookSum (plainChosen store.catalog bookIds) - cda.getD 0) = 0 := by ring
      rw [hz]
      norm_num
    · rw [hae, breakdown_sum_mkPlainOrder _ _ _ _ _ _ _ _ hOTne]
      rw [map_share_sum _ _ _ _ hOTne]
      rw [div_self hOTne]
      have hz : (bookSum (plainChosen store.catalog bookIds) - cda.getD 0) *
          (1 - feePct / 100) * 1 -
          ((bookSum (plainChosen store.catalog bookIds) - cda.getD 0) -
            (bookSum (plainChosen store.catalog bookIds) - cda.getD 0) * (feePct / 100)) = 0 := by
        ring
      rw [hz]
      norm_num

/-- C7 witness: both invariants hold on the concrete order produced for a
$10 book paid with a verified $10 USD COMPLETED PayPal payment. -/
theorem c7_earnings_invariants_witness :
    |c7wOrder.platformEarnings + c7wOrder.authorEarnings - c7wOrder.totalAmount| ≤ 1 / 100 ∧
    |((c7wOrder.authorEarningsBreakdown.map (fun e => e.amount)).sum) -
      c7wOrder.authorEarnings| ≤ 1 / 100 :=
  (c7_earnings_invariants c7wStore 1 [1] (some "PAY") none (some c7wPayPal) 10 true 0
    c7wOrder
    (by norm_num [c7wStore])
    (by simp [c7wStore])
    (by norm_num) (by norm_num)
    (by norm_num [c7wOrder, createOrderSecure, createOrderSecureResult, c7wStore,
      c7wPayPal, calculateCartPricing, fetchBooks, bookSum, round2, round_eq,
      Except.toOption, Option.getD, mkSecureOrder, buildEarningsMap, addEarning,
      List.find?, List.filter])).1

end BlueLeaf
